import Mathlib

/-!
Shallow embedding of the raw-preview-extractor C++ engine
(src/vendor/raw-preview-extractor/src/cpp) in Lean 4, used to settle the
claims about its specification.

Modelling conventions:

* A byte buffer is a `List Nat` (each element is a byte value 0..255); the
  C++ `(const uint8_t* data, size_t size)` pair becomes the list together
  with its length.  Pointer arithmetic `data + off` becomes `List.drop off`.
* `uint32_t` arithmetic is modelled exactly, with `% 2 ^ 32` (`u32`) at
  every site where the C++ computes in 32 bits; `size_t` arithmetic uses
  `% 2 ^ 64` where it can wrap (`sub64w`).
* Two read semantics are used.  The total semantics (`byteAt`) returns 0
  for an index outside the buffer; it agrees with the C++ on every
  execution that stays in bounds, and models the spec's "out-of-range
  offsets are silently skipped" for the functional claims.  The checked
  semantics (the `...Chk` functions, which are the same source functions
  re-read under a memory-safe machine) returns `none` at the first read
  outside the buffer, and is used for the out-of-bounds safety claim.
* The C++ function-static counters (`subIfdCounter` in the CR2, NEF and
  ARW parsers) are modelled as explicit state threaded through the calls,
  so that two successive calls in one process are two calls with the
  threaded state.
* Wall-clock timeouts and OS process-memory accounting are outside a pure
  embedding (the spec declares them out of scope); the timeout checkpoints
  are modelled as never expired and `checkMemoryUsage` as its fallback
  branch (allocation vs. limit), which is the behaviour when `getrusage`
  fails.
* Loops whose progress depends on untrusted file contents (the TIFF
  next-IFD walks) are modelled with an explicit fuel parameter; the
  function returns `none` exactly when the C++ loop has not exited within
  `fuel` iterations.  Bounded loops are modelled by structural or
  well-founded recursion.
-/

/-- Truncation to 32 bits: the value of a C++ `uint32_t` computation. -/
def u32 (n : Nat) : Nat := n % 4294967296

/-- Wrapping `size_t` subtraction `a - b` (64-bit), as in `size - 1`. -/
def sub64w (a b : Nat) : Nat :=
  if b ≤ a then a - b else 18446744073709551616 - (b - a)

/-- Total read of byte `i`: out-of-range reads yield 0 (see file header). -/
def byteAt (d : List Nat) (i : Nat) : Nat := d.getD i 0

/-- utils/endian.cpp EndianUtils::readUInt16. -/
def readUInt16 (d : List Nat) (off : Nat) (littleEndian : Bool) : Nat :=
  if littleEndian then
    byteAt d off + byteAt d (off + 1) * 256
  else
    byteAt d off * 256 + byteAt d (off + 1)

/-- utils/endian.cpp EndianUtils::readUInt32. -/
def readUInt32 (d : List Nat) (off : Nat) (littleEndian : Bool) : Nat :=
  if littleEndian then
    byteAt d off + byteAt d (off + 1) * 256 + byteAt d (off + 2) * 65536 +
      byteAt d (off + 3) * 16777216
  else
    byteAt d off * 16777216 + byteAt d (off + 1) * 65536 +
      byteAt d (off + 2) * 256 + byteAt d (off + 3)

/-- utils/endian.cpp EndianUtils::detectEndianness: "II" little, "MM" big,
anything else defaults to little. -/
def detectEndianness (d : List Nat) : Bool :=
  if byteAt d 0 = 0x49 ∧ byteAt d 1 = 0x49 then true
  else if byteAt d 0 = 0x4D ∧ byteAt d 1 = 0x4D then false
  else true

/-- The four bytes of a `uint32_t` as laid out in memory on the (little
endian) target machine; used where the C++ takes `&tag.valueOffset`. -/
def valueBytesLE (v : Nat) : List Nat :=
  [v % 256, v / 256 % 256, v / 65536 % 256, v / 16777216 % 256]

/-- memcmp-style check that bytes `off .. off + pat.length - 1` of `d`
equal `pat` (total semantics). -/
def matchBytes (d : List Nat) (off : Nat) (pat : List Nat) : Bool :=
  (List.range pat.length).all fun i => byteAt d (off + i) == pat.getD i 0

/-- utils/jpeg_validator.h PreviewQuality. -/
inductive PreviewQuality where
  | THUMBNAIL
  | PREVIEW
  | FULL
  deriving DecidableEq, Repr, Inhabited

/-- formats/cr2_parser.h PreviewInfo (the shared candidate record). -/
structure PreviewInfo where
  offset : Nat
  size : Nat
  width : Nat
  height : Nat
  isJpeg : Bool
  subfileType : Nat
  ifdIndex : Int
  quality : PreviewQuality
  priority : Int
  orientation : Nat
  type : String
  deriving DecidableEq, Repr

/-- The default-constructed PreviewInfo of the C++ header. -/
def previewDefault : PreviewInfo :=
  { offset := 0, size := 0, width := 0, height := 0, isJpeg := false,
    subfileType := 0, ifdIndex := -1, quality := PreviewQuality.THUMBNAIL,
    priority := 0, orientation := 1, type := "" }

instance : Inhabited PreviewInfo := ⟨previewDefault⟩

/-- utils/jpeg_validator.cpp JpegValidator::classifyPreview. -/
def classifyPreview (width height fileSize : Nat) : PreviewQuality :=
  if fileSize ≤ 500 * 1024 ∨ (width ≤ 320 ∧ height ≤ 240) then
    PreviewQuality.THUMBNAIL
  else if 200 * 1024 ≤ fileSize ∧ fileSize ≤ 3 * 1024 * 1024 ∧
      800 ≤ width ∧ 600 ≤ height then
    PreviewQuality.PREVIEW
  else if 3 * 1024 * 1024 < fileSize ∨ 2048 < width ∨ 2048 < height then
    PreviewQuality.FULL
  else
    PreviewQuality.PREVIEW

/-- The scan `for (i = size - 2; i > 2; i--)` of isValidJpeg: true when
bytes `i, i + 1` are `FF D9` for some `i` with `2 < i ≤` the start index. -/
def hasEoiFrom (d : List Nat) : Nat → Bool
  | 0 => false
  | 1 => false
  | 2 => false
  | i + 3 =>
    if byteAt d (i + 3) = 0xFF ∧ byteAt d (i + 4) = 0xD9 then true
    else hasEoiFrom d (i + 2)

/-- utils/jpeg_validator.cpp JpegValidator::isValidJpeg, on the slice that
starts the passed pointer (callers pass `d.drop offset`). -/
def isValidJpeg (d : List Nat) (size : Nat) : Bool :=
  if size < 4 then false
  else if byteAt d 0 ≠ 0xFF then false
  else if byteAt d 1 ≠ 0xD8 then false
  else hasEoiFrom d (size - 2)

/-- utils/jpeg_validator.cpp JpegValidator::findJpegStart, total semantics.
The C++ loop bound is `size - 1` in `size_t`; in the total model a zero
`size` gives bound 0 (the checked model below captures the underflow). -/
def findJpegStartT (d : List Nat) (size : Nat) : Option Nat :=
  (List.range (size - 1)).find? fun i =>
    byteAt d i == 0xFF && byteAt d (i + 1) == 0xD8

/-- utils/jpeg_validator.cpp JpegValidator::findJpegEnd, total semantics:
first `i ≥ max start 2` with `i < size - 1` and bytes `FF D9`, returned as
`i + 2`. -/
def findJpegEndT (d : List Nat) (size start : Nat) : Option Nat :=
  ((List.range (size - 1)).filter (fun i => max start 2 ≤ i)).find?
    (fun i => byteAt d i == 0xFF && byteAt d (i + 1) == 0xD9)
  |>.map (· + 2)

/-!  Checked (memory-safe) re-reading of the same source functions, used
for the bounds-safety claim: a read outside the buffer returns `none`
(a fault) instead of a value.  `size - 1` is computed exactly as the C++
does, in wrapping `size_t` arithmetic. -/

/-- Loop of findJpegStart under checked reads; the second argument is the
number of iterations left, `stop - i` for the loop bound `stop`.  Result:
`none` is an out-of-bounds read; `some none` is SIZE_MAX (not found);
`some (some i)` is a found SOI at `i`. -/
def findJpegStartChkAux (d : List Nat) (i : Nat) :
    Nat → Option (Option Nat)
  | 0 => some none
  | remaining + 1 =>
    match d.get? i with
    | none => none
    | some b =>
      if b = 0xFF then
        match d.get? (i + 1) with
        | none => none
        | some b2 =>
          if b2 = 0xD8 then some (some i)
          else findJpegStartChkAux d (i + 1) remaining
      else findJpegStartChkAux d (i + 1) remaining

/-- JpegValidator::findJpegStart under checked reads; the loop bound
`size - 1` wraps in `size_t` exactly as in the source. -/
def findJpegStartChk (d : List Nat) (size : Nat) : Option (Option Nat) :=
  findJpegStartChkAux d 0 (sub64w size 1)

/-- Loop of findJpegEnd under checked reads (same scheme). -/
def findJpegEndChkAux (d : List Nat) (i : Nat) :
    Nat → Option (Option Nat)
  | 0 => some none
  | remaining + 1 =>
    match d.get? i with
    | none => none
    | some b =>
      if b = 0xFF then
        match d.get? (i + 1) with
        | none => none
        | some b2 =>
          if b2 = 0xD9 then some (some (i + 2))
          else findJpegEndChkAux d (i + 1) remaining
      else findJpegEndChkAux d (i + 1) remaining

/-- JpegValidator::findJpegEnd under checked reads; the loop starts at
`max start 2` and its bound `size - 1` wraps in `size_t`. -/
def findJpegEndChk (d : List Nat) (size start : Nat) : Option (Option Nat) :=
  findJpegEndChkAux d (max start 2) (sub64w size 1 - max start 2)

/-- The EOI scan of isValidJpeg under checked reads, from index `i` of the
slice beginning at `base` down to (but not including) 2. -/
def eoiScanChk (d : List Nat) (base : Nat) : Nat → Option Bool
  | 0 => some false
  | 1 => some false
  | 2 => some false
  | i + 3 =>
    match d.get? (base + i + 3) with
    | none => none
    | some b =>
      if b = 0xFF then
        match d.get? (base + i + 4) with
        | none => none
        | some b2 =>
          if b2 = 0xD9 then some true else eoiScanChk d base (i + 2)
      else eoiScanChk d base (i + 2)

/-- JpegValidator::isValidJpeg under checked reads, on the slice starting
at `base`. -/
def isValidJpegChk (d : List Nat) (base size : Nat) : Option Bool :=
  if size < 4 then some false
  else
    match d.get? base with
    | none => none
    | some b0 =>
      if b0 ≠ 0xFF then some false
      else
        match d.get? (base + 1) with
        | none => none
        | some b1 =>
          if b1 ≠ 0xD8 then some false
          else eoiScanChk d base (size - 2)

/-! TIFF parser (formats/tiff_parser.cpp). -/

/-- formats/tiff_parser.h TiffTag. -/
structure TiffTag where
  tag : Nat
  typ : Nat
  count : Nat
  valueOffset : Nat
  deriving DecidableEq, Repr

/-- formats/tiff_parser.h TiffIfd.  The `std::map` keyed by tag id with
last-parsed-wins insertion is modelled as the entry list in parse order
together with a last-wins lookup (`tagLookup`). -/
structure TiffIfd where
  tags : List TiffTag
  nextIfdOffset : Nat
  deriving DecidableEq, Repr

/-- Lookup in the tag map: the last entry parsed for a given id wins,
matching `ifd.tags[tag.tag] = tag` overwriting on collision. -/
def tagLookup (tags : List TiffTag) (id : Nat) : Option TiffTag :=
  tags.foldl (fun acc t => if t.tag = id then some t else acc) none

/-- TiffParser::getTypeSize. -/
def getTypeSize (typ : Nat) : Nat :=
  if typ = 1 then 1        -- BYTE
  else if typ = 2 then 1   -- ASCII
  else if typ = 3 then 2   -- SHORT
  else if typ = 4 then 4   -- LONG
  else if typ = 5 then 8   -- RATIONAL
  else 0

/-- TiffParser::parseTag: the zero tag is returned when the 12 entry bytes
do not fit (its id 0 makes parseIfd skip it). -/
def parseTag (d : List Nat) (le : Bool) (offset : Nat) : TiffTag :=
  if u32 (offset + 12) > d.length then
    { tag := 0, typ := 0, count := 0, valueOffset := 0 }
  else
    { tag := readUInt16 d offset le,
      typ := readUInt16 d (offset + 2) le,
      count := readUInt32 d (offset + 4) le,
      valueOffset := readUInt32 d (offset + 8) le }

/-- The entry loop of TiffParser::parseIfd: parse `n` 12-byte entries and
keep those with a non-zero id, in parse order. -/
def parseIfdEntries (d : List Nat) (le : Bool) (offset n : Nat) : List TiffTag :=
  (List.range n).foldl
    (fun acc i =>
      let t := parseTag d le (u32 (offset + 2 + i * 12))
      if t.tag ≠ 0 then acc ++ [t] else acc)
    []

/-- TiffParser::parseIfd; `none` models the `return false` paths.  The
offset sums are `uint32_t` arithmetic in the source. -/
def parseIfd (d : List Nat) (le : Bool) (offset : Nat) : Option TiffIfd :=
  if u32 (offset + 2) > d.length then none
  else
    let n := readUInt16 d offset le
    if u32 (offset + 2 + n * 12 + 4) > d.length then none
    else
      some { tags := parseIfdEntries d le offset n,
             nextIfdOffset := readUInt32 d (u32 (offset + 2 + n * 12)) le }

/-- TiffParser::getTagValue32.  When the value fits inline the C++ reads
from the memory bytes of the `valueOffset` field (machine little endian),
re-interpreted in the file's byte order. -/
def getTagValue32 (t : TiffTag) (d : List Nat) (le : Bool) : Nat :=
  let typeSize := getTypeSize t.typ
  if typeSize = 0 then 0
  else
    let totalSize := u32 (typeSize * t.count)
    if totalSize ≤ 4 then
      if t.typ = 3 then readUInt16 (valueBytesLE t.valueOffset) 0 le
      else if t.typ = 4 then t.valueOffset
      else if t.typ = 1 then t.valueOffset % 256
      else 0
    else
      if u32 (t.valueOffset + typeSize) > d.length then 0
      else if t.typ = 3 then readUInt16 d t.valueOffset le
      else if t.typ = 4 then readUInt32 d t.valueOffset le
      else 0

/-- TiffParser::getTagValues32: all `count` elements widened to 32 bits.
`valuePtr` is the inline 4 value bytes or `data + valueOffset`. -/
def getTagValues32 (t : TiffTag) (d : List Nat) (le : Bool) : List Nat :=
  let typeSize := getTypeSize t.typ
  if typeSize = 0 then []
  else
    let totalSize := u32 (typeSize * t.count)
    let inline := totalSize ≤ 4
    if ¬ inline ∧ u32 (t.valueOffset + totalSize) > d.length then []
    else
      let valuePtr := if inline then valueBytesLE t.valueOffset
                      else d.drop t.valueOffset
      (List.range t.count).map fun i =>
        if t.typ = 3 then readUInt16 valuePtr (i * 2) le
        else if t.typ = 4 then readUInt32 valuePtr (i * 4) le
        else if t.typ = 1 then byteAt valuePtr i
        else 0

/-- TiffParser::extractPreviewFromIfd: candidate range from
StripOffsets/StripByteCounts, overridden by
JPEGInterchangeFormat/JPEGInterchangeFormatLength when both are present,
plus dimensions, compression and subfile type. -/
def extractPreviewFromIfd (d : List Nat) (le : Bool) (ifd : TiffIfd)
    (ifdIndex : Int) : PreviewInfo :=
  let p0 := { previewDefault with ifdIndex := ifdIndex }
  let p1 :=
    match tagLookup ifd.tags 0x0111, tagLookup ifd.tags 0x0117 with
    | some so, some sbc =>
      let offsets := getTagValues32 so d le
      let byteCounts := getTagValues32 sbc d le
      if offsets ≠ [] ∧ byteCounts ≠ [] ∧ offsets.length = byteCounts.length then
        { p0 with offset := offsets.getD 0 0, size := byteCounts.getD 0 0 }
      else p0
    | _, _ => p0
  let p2 :=
    match tagLookup ifd.tags 0x0201, tagLookup ifd.tags 0x0202 with
    | some jo, some jl =>
      { p1 with offset := getTagValue32 jo d le, size := getTagValue32 jl d le }
    | _, _ => p1
  let p3 :=
    match tagLookup ifd.tags 0x0100 with
    | some w => { p2 with width := getTagValue32 w d le }
    | none => p2
  let p4 :=
    match tagLookup ifd.tags 0x0101 with
    | some h => { p3 with height := getTagValue32 h d le }
    | none => p3
  let p5 :=
    match tagLookup ifd.tags 0x0103 with
    | some c =>
      let comp := getTagValue32 c d le
      { p4 with isJpeg := comp = 6 ∨ comp = 7 }
    | none => p4
  match tagLookup ifd.tags 0x00FE with
  | some s => { p5 with subfileType := getTagValue32 s d le }
  | none => p5

/-- The per-IFD body of TiffParser::findPreviews: the IFD's own candidate
(kept when `offset != 0 && size > 0`) followed by one candidate per SubIFD
offset from tag 0x014A, with `ifdIndex = -1 - i`. -/
def findPreviewsStep (d : List Nat) (le : Bool) (ifd : TiffIfd)
    (ifdIndex : Nat) : List PreviewInfo :=
  let preview := extractPreviewFromIfd d le ifd (Int.ofNat ifdIndex)
  let main := if preview.offset ≠ 0 ∧ preview.size > 0 then [preview] else []
  let subs :=
    match tagLookup ifd.tags 0x014A with
    | some t =>
      (getTagValues32 t d le).enum.foldl
        (fun acc oi =>
          match parseIfd d le oi.2 with
          | some subIfd =>
            let sp := extractPreviewFromIfd d le subIfd (-1 - Int.ofNat oi.1)
            if sp.offset ≠ 0 ∧ sp.size > 0 then acc ++ [sp] else acc
          | none => acc)
        []
    | none => []
  main ++ subs

/-- The `while (currentOffset != 0 && currentOffset < size)` walk of
TiffParser::findPreviews, with fuel: `none` exactly when the loop has not
exited within `fuel` iterations (the source has no cap of its own). -/
def tiffFindPreviewsAux (d : List Nat) (le : Bool) :
    Nat → Nat → Nat → List PreviewInfo → Option (List PreviewInfo)
  | fuel, currentOffset, ifdIndex, acc =>
    if currentOffset = 0 ∨ ¬ currentOffset < d.length then some acc
    else
      match parseIfd d le currentOffset with
      | none => some acc
      | some ifd =>
        match fuel with
        | 0 => none
        | fuel + 1 =>
          tiffFindPreviewsAux d le fuel ifd.nextIfdOffset (ifdIndex + 1)
            (acc ++ findPreviewsStep d le ifd ifdIndex)

/-- TiffParser::parseHeader: `none` when the buffer is shorter than 8
bytes or the magic is not 0x002A; otherwise the detected byte order and
the first-IFD offset. -/
def tiffParseHeader (d : List Nat) : Option (Bool × Nat) :=
  if d.length < 8 then none
  else
    let le := detectEndianness d
    if readUInt16 d 2 le ≠ 0x002A then none
    else some (le, readUInt32 d 4 le)

/-- TiffParser::findPreviews (fuelled, see tiffFindPreviewsAux). -/
def tiffFindPreviews (fuel : Nat) (d : List Nat) : Option (List PreviewInfo) :=
  match tiffParseHeader d with
  | none => some []
  | some (le, first) => tiffFindPreviewsAux d le fuel first 0 []

/-- TiffParser::extractOrientation: tag 0x0112 of IFD0 when in 1..8,
else 1. -/
def tiffExtractOrientation (d : List Nat) : Nat :=
  match tiffParseHeader d with
  | none => 1
  | some (le, first) =>
    match parseIfd d le first with
    | none => 1
    | some ifd0 =>
      match tagLookup ifd0.tags 0x0112 with
      | some t =>
        let o := getTagValue32 t d le % 65536
        if 1 ≤ o ∧ o ≤ 8 then o else 1
      | none => 1

/-! Shared vendor-parser loop shapes. -/

/-- The guard common to the per-candidate loops of the TIFF-based vendor
parsers: `offset > 0 && size > 0`, the (wrapping `uint32_t`) bounds check
`offset + size <= size`, and JPEG validation of the range. -/
def vendorGuard (d : List Nat) (p : PreviewInfo) : Bool :=
  0 < p.offset ∧ 0 < p.size ∧ u32 (p.offset + p.size) ≤ d.length ∧
    isValidJpeg (d.drop p.offset) p.size

/-- The `for (tiffPreview : tiffPreviews) if (guard) previews.push_back
(classify tiffPreview)` loop of the vendor parsers, with the
function-static SubIFD counter threaded as explicit state. -/
def classifyFoldSt (g : PreviewInfo → Bool)
    (f : PreviewInfo → Nat → PreviewInfo × Nat) (c0 : Nat)
    (l : List PreviewInfo) : List PreviewInfo × Nat :=
  l.foldl
    (fun ac p => if g p then
        let r := f p ac.2
        (ac.1 ++ [r.1], r.2)
      else ac)
    ([], c0)

/-- The duplicate check loop `for (existing : previews) if (offset ==
&& size ==)` of the NEF and ARW second passes. -/
def hasDupKey (l : List PreviewInfo) (o s : Nat) : Bool :=
  l.any fun p => p.offset == o && p.size == s

/-! CR2 parser (formats/cr2_parser.cpp). -/

/-- Cr2Parser::canParse: TIFF magic plus "CR" (0x5243) at offset 8. -/
def cr2CanParse (d : List Nat) : Bool :=
  if d.length < 10 then false
  else
    let le := detectEndianness d
    readUInt16 d 2 le == 0x002A && readUInt16 d 8 le == 0x5243

/-- The classification branch of Cr2Parser::extractPreviews. -/
def cr2Classify (p : PreviewInfo) (ctr : Nat) : PreviewInfo × Nat :=
  if p.ifdIndex = 0 then
    ({ p with
        quality := PreviewQuality.PREVIEW
        type := "CR2_IFD0"
        priority := if 200 * 1024 ≤ p.size ∧ p.size ≤ 3 * 1024 * 1024
                    then 10 else 5 }, ctr)
  else if p.ifdIndex = 1 then
    ({ p with
        quality := PreviewQuality.THUMBNAIL
        type := "CR2_IFD1"
        priority := 1 }, ctr)
  else if p.ifdIndex = -1 then
    ({ p with
        quality := classifyPreview p.width p.height p.size
        type := "CR2_SubIFD" ++ toString ctr
        priority := 3 }, ctr + 1)
  else
    ({ p with
        quality := classifyPreview p.width p.height p.size
        type := "CR2_IFD" ++ toString p.ifdIndex
        priority := 3 }, ctr)

/-- Cr2Parser::extractPreviews (fuelled TIFF walk; `ctr` is the
function-static `subIfdCounter`). -/
def cr2ExtractPreviews (fuel ctr : Nat) (d : List Nat) :
    Option (List PreviewInfo × Nat) :=
  if ¬ cr2CanParse d then some ([], ctr)
  else
    match tiffFindPreviews fuel d with
    | none => none
    | some tps => some (classifyFoldSt (vendorGuard d) cr2Classify ctr tps)

/-- The priority/tie fold shared by Cr2Parser::selectBestPreview and
NefParser::selectBestPreview (highest priority; on a tie prefer a
candidate inside 200 KiB..3 MiB, larger first). -/
def prioTieRangeSelect (previews : List PreviewInfo) : PreviewInfo :=
  if previews = [] then previewDefault
  else
    (previews.foldl
      (fun (ac : PreviewInfo × Int) p =>
        if ac.2 < p.priority then (p, p.priority)
        else if p.priority = ac.2 then
          let curIn := 200 * 1024 ≤ ac.1.size ∧ ac.1.size ≤ 3 * 1024 * 1024
          let candIn := 200 * 1024 ≤ p.size ∧ p.size ≤ 3 * 1024 * 1024
          if candIn ∧ (¬ curIn ∨ ac.1.size < p.size) then (p, ac.2) else ac
        else ac)
      (previewDefault, -1)).1

/-- Cr2Parser::selectBestPreview. -/
def cr2SelectBest (previews : List PreviewInfo) : PreviewInfo :=
  prioTieRangeSelect previews

/-! NEF parser (formats/nef_parser.cpp). -/

/-- ASCII "NIKON". -/
def nikonBytes : List Nat := [78, 73, 75, 79, 78]

/-- NefParser::canParse: TIFF whose IFD0 Make tag (0x010F, ASCII, count at
least 5) points at bytes "NIKON".  With count >= 5 the value never fits
inline, so the value position is `valueOffset`. -/
def nefCanParse (d : List Nat) : Bool :=
  if d.length < 8 then false
  else
    let le := detectEndianness d
    if readUInt16 d 2 le ≠ 0x002A then false
    else
      let first := readUInt32 d 4 le
      if ¬ first < d.length then false
      else
        match parseIfd d le first with
        | none => false
        | some ifd =>
          match tagLookup ifd.tags 0x010F with
          | some mk =>
            mk.typ == 2 && 5 ≤ mk.count && mk.valueOffset + 5 ≤ d.length &&
              matchBytes d mk.valueOffset nikonBytes
          | none => false

/-- The classification branch of NefParser::extractPreviews. -/
def nefClassify (orient : Nat) (p : PreviewInfo) (ctr : Nat) :
    PreviewInfo × Nat :=
  if p.ifdIndex = -1 then
    let q := classifyPreview p.width p.height p.size
    ({ p with
        quality := q
        type := "NEF_SubIFD" ++ toString ctr
        priority :=
          if 200 * 1024 ≤ p.size ∧ p.size ≤ 3 * 1024 * 1024 then 10
          else if q = PreviewQuality.PREVIEW then 8 else 5
        orientation := orient }, ctr + 1)
  else if p.ifdIndex = 1 then
    ({ p with
        quality := PreviewQuality.THUMBNAIL
        type := "NEF_IFD1"
        priority := 2
        orientation := orient }, ctr)
  else if p.ifdIndex = 0 then
    ({ p with
        quality := classifyPreview p.width p.height p.size
        type := "NEF_IFD0"
        priority := 7
        orientation := orient }, ctr)
  else
    ({ p with
        quality := classifyPreview p.width p.height p.size
        type := "NEF_IFD" ++ toString p.ifdIndex
        priority := 3
        orientation := orient }, ctr)

/-- The SubIFD body of NefParser::extractNikonSpecificPreviews: for each
SubIFD holding both JpgFromRawStart (0x0201) and JpgFromRawLength
(0x0202), append the validated range unless its `(offset, size)` already
occurs in the accumulated list. -/
def nefNikonStep (d : List Nat) (le : Bool) (orient : Nat) (ifd : TiffIfd)
    (prevs : List PreviewInfo) : List PreviewInfo :=
  match tagLookup ifd.tags 0x014A with
  | none => prevs
  | some t =>
    (getTagValues32 t d le).enum.foldl
      (fun acc oi =>
        match parseIfd d le oi.2 with
        | none => acc
        | some subIfd =>
          match tagLookup subIfd.tags 0x0201, tagLookup subIfd.tags 0x0202 with
          | some js, some jl =>
            let jOff := getTagValue32 js d le
            let jLen := getTagValue32 jl d le
            if 0 < jOff ∧ 0 < jLen ∧ u32 (jOff + jLen) ≤ d.length ∧
                isValidJpeg (d.drop jOff) jLen then
              let cand : PreviewInfo :=
                { previewDefault with
                    offset := jOff
                    size := jLen
                    isJpeg := true
                    ifdIndex := -1 - Int.ofNat oi.1
                    quality := classifyPreview 0 0 jLen
                    orientation := orient
                    priority :=
                      if 200 * 1024 ≤ jLen ∧ jLen ≤ 3 * 1024 * 1024 then 12
                      else 7 }
              if hasDupKey acc cand.offset cand.size then acc
              else acc ++ [cand]
            else acc
          | _, _ => acc)
      prevs

/-- The IFD-chain walk of NefParser::extractNikonSpecificPreviews
(fuelled like the TIFF walk; the source has no cap). -/
def nefNikonAux (d : List Nat) (le : Bool) (orient : Nat) :
    Nat → Nat → List PreviewInfo → Option (List PreviewInfo)
  | fuel, off, prevs =>
    if off = 0 ∨ ¬ off < d.length then some prevs
    else
      match parseIfd d le off with
      | none => some prevs
      | some ifd =>
        match fuel with
        | 0 => none
        | fuel + 1 =>
          nefNikonAux d le orient fuel ifd.nextIfdOffset
            (nefNikonStep d le orient ifd prevs)

/-- NefParser::extractNikonSpecificPreviews. -/
def nefNikonPass (fuel : Nat) (d : List Nat) (orient : Nat)
    (prevs : List PreviewInfo) : Option (List PreviewInfo) :=
  match tiffParseHeader d with
  | none => some prevs
  | some (le, first) => nefNikonAux d le orient fuel first prevs

/-- NefParser::extractPreviews (fuelled; `ctr` is the function-static
`subIfdCounter`). -/
def nefExtractPreviews (fuel ctr : Nat) (d : List Nat) :
    Option (List PreviewInfo × Nat) :=
  if ¬ nefCanParse d then some ([], ctr)
  else
    match tiffFindPreviews fuel d with
    | none => none
    | some tps =>
      let orient := tiffExtractOrientation d
      let mainRes := classifyFoldSt (vendorGuard d) (nefClassify orient) ctr tps
      match nefNikonPass fuel d orient mainRes.1 with
      | none => none
      | some out => some (out, mainRes.2)

/-- NefParser::selectBestPreview (same fold as CR2). -/
def nefSelectBest (previews : List PreviewInfo) : PreviewInfo :=
  prioTieRangeSelect previews

/-! RAF parser (formats/raf_parser.cpp). -/

/-- ASCII "FUJIFILMCCD-RAW". -/
def rafMagic : List Nat :=
  [70, 85, 74, 73, 70, 73, 76, 77, 67, 67, 68, 45, 82, 65, 87]

/-- RafParser::canParse. -/
def rafCanParse (d : List Nat) : Bool :=
  16 ≤ d.length && matchBytes d 0 rafMagic

/-- RafParser::extractPreviews: big-endian u32 JPEG offset at 84 and
length at 88, one candidate when non-zero, in (wrapping) bounds and a
valid JPEG; note the `size < 100` early return of the source. -/
def rafExtractPreviews (d : List Nat) : List PreviewInfo :=
  if ¬ rafCanParse d ∨ d.length < 100 then []
  else if 88 ≤ d.length then
    let jOff := readUInt32 d 84 false
    let jLen := readUInt32 d 88 false
    if 0 < jOff ∧ 0 < jLen ∧ u32 (jOff + jLen) ≤ d.length ∧
        isValidJpeg (d.drop jOff) jLen then
      [{ previewDefault with
           offset := jOff
           size := jLen
           isJpeg := true
           quality := classifyPreview 0 0 jLen
           priority :=
             if 200 * 1024 ≤ jLen ∧ jLen ≤ 3 * 1024 * 1024 then 10
             else 7 }]
    else []
  else []

/-- RafParser::selectBestPreview. -/
def rafSelectBest (previews : List PreviewInfo) : PreviewInfo :=
  previews.headD previewDefault

/-! ARW parser (formats/arw_parser.cpp). -/

/-- ASCII "SONY". -/
def sonyBytes : List Nat := [83, 79, 78, 89]

/-- ArwParser::canParse: TIFF whose IFD0 Make starts with "SONY", or whose
IFD0 carries the SR2Private tag 0x7200.  For a Make count of at most 4 the
source compares bytes at the stack address of the tag's value field, which
never lies inside the buffer; that branch is therefore false. -/
def arwCanParse (d : List Nat) : Bool :=
  if d.length < 8 then false
  else
    let le := detectEndianness d
    if readUInt16 d 2 le ≠ 0x002A then false
    else
      let first := readUInt32 d 4 le
      if ¬ first < d.length then false
      else
        match parseIfd d le first with
        | none => false
        | some ifd =>
          (match tagLookup ifd.tags 0x010F with
           | some mk =>
             mk.typ == 2 && 4 ≤ mk.count && 4 < mk.count &&
               mk.valueOffset + 4 ≤ d.length &&
               matchBytes d mk.valueOffset sonyBytes
           | none => false) ||
          (tagLookup ifd.tags 0x7200).isSome

/-- ArwParser::classifyArwPreview together with the orientation assignment
of the surrounding loop; `ctr` is the function-static `subIfdCounter`. -/
def arwClassify (orient : Nat) (p : PreviewInfo) (ctr : Nat) :
    PreviewInfo × Nat :=
  if p.subfileType = 1 then
    let q := classifyPreview p.width p.height p.size
    ({ p with
        quality := q
        type := "ARW_Preview"
        priority :=
          if 200 * 1024 ≤ p.size ∧ p.size ≤ 3 * 1024 * 1024 then 10
          else if q = PreviewQuality.PREVIEW then 8 else 5
        orientation := orient }, ctr)
  else if p.ifdIndex = 1 then
    ({ p with
        quality := PreviewQuality.THUMBNAIL
        type := "ARW_IFD1"
        priority := 2
        orientation := orient }, ctr)
  else if p.ifdIndex = -1 then
    ({ p with
        quality := classifyPreview p.width p.height p.size
        type := "ARW_SubIFD" ++ toString ctr
        priority := if 1024 * 1024 ≤ p.size then 9 else 6
        orientation := orient }, ctr + 1)
  else if p.ifdIndex = 0 then
    ({ p with
        quality := classifyPreview p.width p.height p.size
        type := "ARW_IFD0"
        priority := 7
        orientation := orient }, ctr)
  else
    ({ p with
        quality := classifyPreview p.width p.height p.size
        type := "ARW_IFD" ++ toString p.ifdIndex
        priority := 4
        orientation := orient }, ctr)

/-- The SubIFD scan of ArwParser::extractArwOrientation: first SubIFD
whose orientation tag is in 1..8 and not the default 1. -/
def arwOrientSubScan (d : List Nat) (le : Bool) (offs : List Nat) :
    Option Nat :=
  offs.findSome? fun so =>
    if 0 < so ∧ so < d.length then
      match parseIfd d le so with
      | some sub =>
        match tagLookup sub.tags 0x0112 with
        | some t =>
          let o := getTagValue32 t d le % 65536
          if 1 ≤ o ∧ o ≤ 8 ∧ o ≠ 1 then some o else none
        | none => none
      | none => none
    else none

/-- The capped (10 IFDs) walk of ArwParser::extractArwOrientation. -/
def arwOrientAux (d : List Nat) (le : Bool) (idx off : Nat) : Nat :=
  if off = 0 ∨ ¬ off < d.length ∨ ¬ idx < 10 then 1
  else
    match parseIfd d le off with
    | none => 1
    | some ifd =>
      let own : Option Nat :=
        match tagLookup ifd.tags 0x0112 with
        | some t =>
          let o := getTagValue32 t d le % 65536
          if 1 ≤ o ∧ o ≤ 8 then
            if idx = 0 then some o
            else if idx = 1 ∧ o ≠ 1 then some o
            else none
          else none
        | none => none
      match own with
      | some o => o
      | none =>
        let sub : Option Nat :=
          match tagLookup ifd.tags 0x014A with
          | some t => arwOrientSubScan d le (getTagValues32 t d le)
          | none => none
        match sub with
        | some o => o
        | none => arwOrientAux d le (idx + 1) ifd.nextIfdOffset
termination_by 10 - idx
decreasing_by simp_all; omega

/-- ArwParser::extractArwOrientation. -/
def arwExtractOrientation (d : List Nat) : Nat :=
  if d.length < 8 then 1
  else
    match tiffParseHeader d with
    | none => 1
    | some (le, first) =>
      if ¬ first < d.length then 1 else arwOrientAux d le 0 first

/-- ArwParser::parseSr2Private: scan the SR2Private range for SOI
markers; each JPEG found, validated and not already keyed in the list is
appended with type "ARW_SR2Private" and ifdIndex -20. -/
def parseSr2Private (d : List Nat) (offset length : Nat) (orient : Nat)
    (prevs : List PreviewInfo) : List PreviewInfo :=
  if u32 (offset + length) > d.length then prevs
  else
    (List.range (length - 1)).foldl
      (fun acc i =>
        if byteAt d (offset + i) = 0xFF ∧ byteAt d (offset + i + 1) = 0xD8 then
          match findJpegEndT d d.length (offset + i) with
          | some jEnd =>
            if offset + i < jEnd then
              let jSize := u32 (jEnd - (offset + i))
              if isValidJpeg (d.drop (offset + i)) jSize then
                let cand : PreviewInfo :=
                  { previewDefault with
                      offset := u32 (offset + i)
                      size := jSize
                      isJpeg := true
                      ifdIndex := -20
                      quality := classifyPreview 0 0 jSize
                      type := "ARW_SR2Private"
                      orientation := orient
                      priority :=
                        if 200 * 1024 ≤ jSize ∧ jSize ≤ 3 * 1024 * 1024
                        then 12 else 8 }
                if hasDupKey acc cand.offset cand.size then acc
                else acc ++ [cand]
              else acc
            else acc
          | none => acc
        else acc)
      prevs

/-- The SR2SubIFD (0x7201) body of ArwParser::extractSr2PrivatePreviews:
for each SubIFD, the first StripOffsets/StripByteCounts pair, validated
and deduplicated, is appended with type "ARW_SR2SubIFD" and ifdIndex -10.
Note the source checks neither `jpegOffset > 0` nor a strip-count match
here. -/
def arwSr2SubIfdStep (d : List Nat) (le : Bool) (orient : Nat)
    (offs : List Nat) (prevs : List PreviewInfo) : List PreviewInfo :=
  offs.foldl
    (fun acc so =>
      if 0 < so ∧ so < d.length then
        match parseIfd d le so with
        | some sub =>
          match tagLookup sub.tags 0x0111, tagLookup sub.tags 0x0117 with
          | some soT, some sbcT =>
            let offsets := getTagValues32 soT d le
            let byteCounts := getTagValues32 sbcT d le
            if offsets ≠ [] ∧ byteCounts ≠ [] then
              let jOff := offsets.getD 0 0
              let jSize := byteCounts.getD 0 0
              if u32 (jOff + jSize) ≤ d.length ∧
                  isValidJpeg (d.drop jOff) jSize then
                let cand : PreviewInfo :=
                  { previewDefault with
                      offset := jOff
                      size := jSize
                      isJpeg := true
                      ifdIndex := -10
                      quality := classifyPreview 0 0 jSize
                      type := "ARW_SR2SubIFD"
                      orientation := orient
                      priority :=
                        if 200 * 1024 ≤ jSize ∧ jSize ≤ 3 * 1024 * 1024
                        then 11 else 7 }
                if hasDupKey acc cand.offset cand.size then acc
                else acc ++ [cand]
              else acc
            else acc
          | _, _ => acc
        | none => acc
      else acc)
    prevs

/-- The IFD-chain walk of ArwParser::extractSr2PrivatePreviews (fuelled;
the source has no cap). -/
def arwSr2Aux (d : List Nat) (le : Bool) (orient : Nat) :
    Nat → Nat → List PreviewInfo → Option (List PreviewInfo)
  | fuel, off, prevs =>
    if off = 0 ∨ ¬ off < d.length then some prevs
    else
      match parseIfd d le off with
      | none => some prevs
      | some ifd =>
        let prevs1 :=
          match tagLookup ifd.tags 0x7200 with
          | some t =>
            let sr2Offset := getTagValue32 t d le
            let sr2Length := t.count
            if 0 < sr2Offset ∧ 0 < sr2Length ∧
                u32 (sr2Offset + sr2Length) ≤ d.length then
              parseSr2Private d sr2Offset sr2Length orient prevs
            else prevs
          | none => prevs
        let prevs2 :=
          match tagLookup ifd.tags 0x7201 with
          | some t => arwSr2SubIfdStep d le orient (getTagValues32 t d le) prevs1
          | none => prevs1
        match fuel with
        | 0 => none
        | fuel + 1 => arwSr2Aux d le orient fuel ifd.nextIfdOffset prevs2

/-- ArwParser::extractSr2PrivatePreviews. -/
def arwSr2Pass (fuel : Nat) (d : List Nat) (orient : Nat)
    (prevs : List PreviewInfo) : Option (List PreviewInfo) :=
  match tiffParseHeader d with
  | none => some prevs
  | some (le, first) => arwSr2Aux d le orient fuel first prevs

/-- ArwParser::extractPreviews (fuelled; `ctr` is the function-static
`subIfdCounter`). -/
def arwExtractPreviews (fuel ctr : Nat) (d : List Nat) :
    Option (List PreviewInfo × Nat) :=
  if ¬ arwCanParse d then some ([], ctr)
  else
    match tiffFindPreviews fuel d with
    | none => none
    | some tps =>
      let orient := arwExtractOrientation d
      let mainRes := classifyFoldSt (vendorGuard d) (arwClassify orient) ctr tps
      match arwSr2Pass fuel d orient mainRes.1 with
      | none => none
      | some out => some (out, mainRes.2)

/-- ArwParser::selectBestPreview: priority first; on a tie prefer the
target range (larger first), and outside the range the size closest to
1 MiB. -/
def arwSelectBest (previews : List PreviewInfo) : PreviewInfo :=
  if previews = [] then previewDefault
  else
    (previews.foldl
      (fun (ac : PreviewInfo × Int) p =>
        if ac.2 < p.priority then (p, p.priority)
        else if p.priority = ac.2 then
          let curIn := 200 * 1024 ≤ ac.1.size ∧ ac.1.size ≤ 3 * 1024 * 1024
          let candIn := 200 * 1024 ≤ p.size ∧ p.size ≤ 3 * 1024 * 1024
          if candIn ∧ (¬ curIn ∨ ac.1.size < p.size) then (p, ac.2)
          else if ¬ curIn ∧ ¬ candIn then
            let target := 1024 * 1024
            let curDiff := if target < ac.1.size then ac.1.size - target
                           else target - ac.1.size
            let candDiff := if target < p.size then p.size - target
                            else target - p.size
            if candDiff < curDiff then (p, ac.2) else ac
          else ac
        else ac)
      (previewDefault, -1)).1

/-! CR3 parser (formats/cr3_parser.cpp). -/

/-- formats/cr3_parser.h Box. -/
structure Cr3Box where
  size : Nat
  typ : Nat
  deriving DecidableEq, Repr

/-- The Canon preview uuid box id. -/
def cr3PreviewUuid : List Nat :=
  [0xea, 0xf4, 0x2b, 0x5e, 0x1c, 0x98, 0x4b, 0x88,
   0xb9, 0xfb, 0xb7, 0xdc, 0x40, 0x6e, 0x4d, 0x16]

/-- Cr3Parser::canParse: leading ftyp box with major brand "cr3 " or
"crx ". -/
def cr3CanParse (d : List Nat) : Bool :=
  if d.length < 20 then false
  else
    if readUInt32 d 4 false ≠ 0x66747970 then false
    else
      let brand := readUInt32 d 8 false
      brand == 0x63723320 || brand == 0x63727820

/-- Cr3Parser::parseBox, including the 64-bit-size and to-end-of-file
adjustments (both results are truncated back to `uint32_t`). -/
def parseBox (d : List Nat) (offset : Nat) : Cr3Box :=
  if offset + 8 > d.length then { size := 0, typ := 0 }
  else
    let sz := readUInt32 d offset false
    let ty := readUInt32 d (offset + 4) false
    if sz = 1 ∧ offset + 16 ≤ d.length then
      let size64 := readUInt32 d (offset + 8) false * 4294967296 +
        readUInt32 d (offset + 12) false
      { size := u32 (min size64 (d.length - offset)), typ := ty }
    else if sz = 0 then
      { size := u32 (d.length - offset), typ := ty }
    else
      { size := sz, typ := ty }

/-- Cr3Parser::extractPreviewFromUuid: inside the preview uuid payload,
expect the PRVW signature, then locate an SOI/EOI pair bounded by the
PRVW box and validate it. -/
def cr3ExtractPreviewFromUuid (d : List Nat) (uuidDataOffset uuidDataSize : Nat) :
    PreviewInfo :=
  if uuidDataOffset + 16 > d.length ∨ uuidDataSize < 16 then previewDefault
  else
    let prvwBoxOffset := uuidDataOffset + 8
    if prvwBoxOffset + 8 > d.length then previewDefault
    else
      let prvwBoxSize := readUInt32 d prvwBoxOffset false
      let prvwSig := readUInt32 d (prvwBoxOffset + 4) false
      if prvwSig = 0x50525657 ∧ 20 < prvwBoxSize then
        let jpegSearchOffset := prvwBoxOffset + 8 + 16
        if jpegSearchOffset < d.length then
          match findJpegStartT (d.drop jpegSearchOffset)
              (d.length - jpegSearchOffset) with
          | some js0 =>
            let jpegStart := js0 + jpegSearchOffset
            let maxJpegSize := sub64w prvwBoxSize (jpegStart - prvwBoxOffset)
            match findJpegEndT d (min d.length (prvwBoxOffset + prvwBoxSize))
                jpegStart with
            | some jpegEnd =>
              if jpegStart < jpegEnd ∧ jpegEnd - jpegStart ≤ maxJpegSize then
                let p : PreviewInfo :=
                  { previewDefault with
                      offset := u32 jpegStart
                      size := u32 (jpegEnd - jpegStart)
                      isJpeg := true
                      quality := classifyPreview 0 0 (u32 (jpegEnd - jpegStart))
                      priority := 8 }
                if isValidJpeg (d.drop p.offset) p.size then p
                else previewDefault
              else previewDefault
            | none => previewDefault
          | none => previewDefault
        else previewDefault
      else previewDefault

/-- Cr3Parser::extractThumbnailPreview: first "THMB" marker, then the
next SOI after its 16-byte header and the next EOI.  When the fields have
been filled the function returns them whether or not the final
isValidJpeg check passes (on failure the source breaks out of the loop
and returns the already-mutated local). -/
def cr3ExtractThumbnail (d : List Nat) : PreviewInfo :=
  match (List.range (d.length - 4)).find?
      (fun i => readUInt32 d i false == 0x54484D42) with
  | none => previewDefault
  | some i =>
    if i + 20 < d.length then
      let dataOffset := i + 16
      match findJpegStartT (d.drop dataOffset) (d.length - dataOffset) with
      | some js0 =>
        let jpegStart := js0 + dataOffset
        match findJpegEndT d d.length jpegStart with
        | some jpegEnd =>
          if jpegStart < jpegEnd then
            { previewDefault with
                offset := u32 jpegStart
                size := u32 (jpegEnd - jpegStart)
                width := 160
                height := 120
                isJpeg := true
                quality := PreviewQuality.THUMBNAIL
                type := "CR3_THMB"
                priority := 1 }
          else previewDefault
        | none => previewDefault
      | none => previewDefault
    else previewDefault

/-- The box walk of Cr3Parser::extractMediumPreview: first preview uuid
box whose payload yields a PRVW preview, retagged CR3_PRVW. -/
def cr3MediumWalk (d : List Nat) (offset : Nat) : PreviewInfo :=
  if _h : offset < d.length - 8 then
    let box := parseBox d offset
    if _hz : box.size = 0 then previewDefault
    else
      let found : Option PreviewInfo :=
        if box.typ = 0x75756964 ∧ 32 ≤ box.size ∧ offset + 24 ≤ d.length ∧
            matchBytes d (offset + 8) cr3PreviewUuid then
          let p := cr3ExtractPreviewFromUuid d (offset + 24) (box.size - 24)
          if 0 < p.offset ∧ 0 < p.size then
            some { p with
                     quality := PreviewQuality.PREVIEW
                     type := "CR3_PRVW"
                     priority := 5 }
          else none
        else none
      match found with
      | some p => p
      | none =>
        if _hs : box.size < 8 then previewDefault
        else cr3MediumWalk d (offset + box.size)
  else previewDefault
termination_by d.length - offset
decreasing_by
  simp only [show box = parseBox d offset from rfl] at _hs
  omega

/-- The box walk of Cr3Parser::extractFullResolutionPreview: inside the
first mdat box, the next SOI/EOI pair larger than 1 MiB.  As in the THMB
case the filled record is returned whether or not the final isValidJpeg
check passes. -/
def cr3FullWalk (d : List Nat) (offset : Nat) : PreviewInfo :=
  if _h : offset < d.length - 8 then
    let box := parseBox d offset
    if _hz : box.size = 0 then previewDefault
    else if box.typ = 0x6D646174 then
      let mdatDataOffset := offset + 8
      let searchLimit := min d.length (offset + box.size)
      match findJpegStartT (d.drop mdatDataOffset)
          (sub64w searchLimit mdatDataOffset) with
      | some js0 =>
        let jpegStart := js0 + mdatDataOffset
        match findJpegEndT d searchLimit jpegStart with
        | some jpegEnd =>
          if jpegStart < jpegEnd then
            let jpegSize := u32 (jpegEnd - jpegStart)
            if 1024 * 1024 < jpegSize then
              { previewDefault with
                  offset := u32 jpegStart
                  size := jpegSize
                  width := 5472
                  height := 3648
                  isJpeg := true
                  quality := PreviewQuality.FULL
                  type := "CR3_MDAT"
                  priority := 10 }
            else previewDefault
          else previewDefault
        | none => previewDefault
      | none => previewDefault
    else
      if _hs : box.size < 8 then previewDefault
      else cr3FullWalk d (offset + box.size)
  else previewDefault
termination_by d.length - offset
decreasing_by
  simp only [show box = parseBox d offset from rfl] at _hs
  omega

/-- Cr3Parser::extractOrientation: little-endian 16-bit value 0x140 past
the first "CMT1" marker, accepted when in 1..8. -/
def cr3ExtractOrientation (d : List Nat) : Nat :=
  match (List.range (d.length - 4)).find?
      (fun i => readUInt32 d i false == 0x434D5431) with
  | none => 1
  | some i =>
    if i + 0x140 + 2 ≤ d.length then
      let o := readUInt16 d (i + 0x140) true
      if 1 ≤ o ∧ o ≤ 8 then o else 1
    else 1

/-- Cr3Parser::extractPreviews: THMB, PRVW and MDAT candidates, each kept
when `offset > 0 && size > 0`, all stamped with the CMT1 orientation. -/
def cr3ExtractPreviews (d : List Nat) : List PreviewInfo :=
  if ¬ cr3CanParse d then []
  else
    let orient := cr3ExtractOrientation d
    let t := cr3ExtractThumbnail d
    let l1 := if 0 < t.offset ∧ 0 < t.size then
        [{ t with orientation := orient }] else []
    let m := cr3MediumWalk d 0
    let l2 := if 0 < m.offset ∧ 0 < m.size then
        [{ m with orientation := orient }] else []
    let f := cr3FullWalk d 0
    let l3 := if 0 < f.offset ∧ 0 < f.size then
        [{ f with orientation := orient }] else []
    l1 ++ l2 ++ l3

/-- Cr3Parser::selectBestPreview: largest candidate inside
200 KiB..3 MiB, else the first candidate. -/
def cr3SelectBest (previews : List PreviewInfo) : PreviewInfo :=
  if previews = [] then previewDefault
  else
    let best := previews.foldl
      (fun best p =>
        if 200 * 1024 ≤ p.size ∧ p.size ≤ 3 * 1024 * 1024 then
          if best.size = 0 ∨ best.size < p.size then p else best
        else best)
      previewDefault
    if best.size = 0 then previews.headD previewDefault else best

/-! DNG, ORF and RW2 parsers (formats/dng_parser.cpp, orf_parser.cpp,
rw2_parser.cpp). -/

/-- ASCII "Adobe". -/
def adobeBytes : List Nat := [65, 100, 111, 98, 101]

/-- DngParser::canParse: TIFF whose IFD0 has the DNGVersion tag 0xC612 or
a Software tag (0x0131, ASCII, count at least 5) reading "Adobe". -/
def dngCanParse (d : List Nat) : Bool :=
  if d.length < 8 then false
  else
    let le := detectEndianness d
    if readUInt16 d 2 le ≠ 0x002A then false
    else
      let first := readUInt32 d 4 le
      if ¬ first < d.length then false
      else
        match parseIfd d le first with
        | none => false
        | some ifd =>
          (tagLookup ifd.tags 0xC612).isSome ||
          (match tagLookup ifd.tags 0x0131 with
           | some sw =>
             sw.typ == 2 && 5 ≤ sw.count && sw.valueOffset + 5 ≤ d.length &&
               matchBytes d sw.valueOffset adobeBytes
           | none => false)

/-- The classification branch of DngParser::extractPreviews. -/
def dngClassify (orient : Nat) (p : PreviewInfo) (ctr : Nat) :
    PreviewInfo × Nat :=
  if p.subfileType = 1 then
    ({ p with
        quality := classifyPreview p.width p.height p.size
        priority := if 200 * 1024 ≤ p.size ∧ p.size ≤ 3 * 1024 * 1024
                    then 10 else 8
        orientation := orient }, ctr)
  else if p.ifdIndex = -1 then
    ({ p with
        quality := classifyPreview p.width p.height p.size
        priority := 9
        orientation := orient }, ctr)
  else if p.ifdIndex = 0 then
    ({ p with
        quality := PreviewQuality.THUMBNAIL
        priority := 2
        orientation := orient }, ctr)
  else
    ({ p with
        quality := classifyPreview p.width p.height p.size
        priority := 5
        orientation := orient }, ctr)

/-- DngParser::extractPreviews (fuelled). -/
def dngExtractPreviews (fuel : Nat) (d : List Nat) :
    Option (List PreviewInfo) :=
  if ¬ dngCanParse d then some []
  else
    match tiffFindPreviews fuel d with
    | none => none
    | some tps =>
      let orient := tiffExtractOrientation d
      some (classifyFoldSt (vendorGuard d) (dngClassify orient) 0 tps).1

/-- The fold of DngParser::selectBestPreview (also used by ORF and RW2):
highest priority, then larger size on a tie. -/
def prioSizeSelect (previews : List PreviewInfo) : PreviewInfo :=
  if previews = [] then previewDefault
  else
    (previews.foldl
      (fun (ac : PreviewInfo × Int) p =>
        if ac.2 < p.priority ∨ (p.priority = ac.2 ∧ ac.1.size < p.size) then
          (p, p.priority)
        else ac)
      (previewDefault, -1)).1

/-- DngParser::selectBestPreview. -/
def dngSelectBest (previews : List PreviewInfo) : PreviewInfo :=
  prioSizeSelect previews

/-- ASCII "OLYMPUS". -/
def olympusBytes : List Nat := [79, 76, 89, 77, 80, 85, 83]

/-- OrfParser::canParse: "MMOR" or "IIRO" leading bytes, or a TIFF whose
IFD0 Make (count at least 7) reads "OLYMPUS". -/
def orfCanParse (d : List Nat) : Bool :=
  if d.length < 8 then false
  else
    let header := readUInt32 d 0 false
    if header == 0x4D4D4F52 || header == 0x4949524F then true
    else
      let le := detectEndianness d
      if readUInt16 d 2 le ≠ 0x002A then false
      else
        let first := readUInt32 d 4 le
        if ¬ first < d.length then false
        else
          match parseIfd d le first with
          | none => false
          | some ifd =>
            match tagLookup ifd.tags 0x010F with
            | some mk =>
              mk.typ == 2 && 7 ≤ mk.count && mk.valueOffset + 7 ≤ d.length &&
                matchBytes d mk.valueOffset olympusBytes
            | none => false

/-- The classification of OrfParser::extractPreviews. -/
def orfClassify (p : PreviewInfo) (ctr : Nat) : PreviewInfo × Nat :=
  ({ p with
      quality := classifyPreview p.width p.height p.size
      priority := if 200 * 1024 ≤ p.size ∧ p.size ≤ 3 * 1024 * 1024
                  then 10 else 6 }, ctr)

/-- OrfParser::extractPreviews (fuelled). -/
def orfExtractPreviews (fuel : Nat) (d : List Nat) :
    Option (List PreviewInfo) :=
  if ¬ orfCanParse d then some []
  else
    match tiffFindPreviews fuel d with
    | none => none
    | some tps => some (classifyFoldSt (vendorGuard d) orfClassify 0 tps).1

/-- OrfParser::selectBestPreview. -/
def orfSelectBest (previews : List PreviewInfo) : PreviewInfo :=
  prioSizeSelect previews

/-- The RW2 leading magic bytes. -/
def rw2Magic : List Nat := [0x49, 0x49, 0x55, 0x00, 0x08, 0x00, 0x00, 0x00]

/-- ASCII "Panasonic". -/
def panasonicBytes : List Nat := [80, 97, 110, 97, 115, 111, 110, 105, 99]

/-- Rw2Parser::canParse: the RW2 magic, or a TIFF whose IFD0 Make (count
at least 9) reads "Panasonic". -/
def rw2CanParse (d : List Nat) : Bool :=
  if d.length < 8 then false
  else if matchBytes d 0 rw2Magic then true
  else
    let le := detectEndianness d
    if readUInt16 d 2 le ≠ 0x002A then false
    else
      let first := readUInt32 d 4 le
      if ¬ first < d.length then false
      else
        match parseIfd d le first with
        | none => false
        | some ifd =>
          match tagLookup ifd.tags 0x010F with
          | some mk =>
            mk.typ == 2 && 9 ≤ mk.count && mk.valueOffset + 9 ≤ d.length &&
              matchBytes d mk.valueOffset panasonicBytes
          | none => false

/-- The classification of Rw2Parser::extractPreviews. -/
def rw2Classify (p : PreviewInfo) (ctr : Nat) : PreviewInfo × Nat :=
  let q := classifyPreview p.width p.height p.size
  ({ p with
      quality := q
      priority :=
        if 200 * 1024 ≤ p.size ∧ p.size ≤ 3 * 1024 * 1024 then 10
        else if q = PreviewQuality.PREVIEW then 8 else 5 }, ctr)

/-- Rw2Parser::extractPreviews (fuelled). -/
def rw2ExtractPreviews (fuel : Nat) (d : List Nat) :
    Option (List PreviewInfo) :=
  if ¬ rw2CanParse d then some []
  else
    match tiffFindPreviews fuel d with
    | none => none
    | some tps => some (classifyFoldSt (vendorGuard d) rw2Classify 0 tps).1

/-- Rw2Parser::selectBestPreview. -/
def rw2SelectBest (previews : List PreviewInfo) : PreviewInfo :=
  prioSizeSelect previews

/-! Top-level extractor (raw_extractor.h / raw_extractor.cpp). -/

/-- raw_extractor.h RawFormat. -/
inductive RawFormat where
  | UNKNOWN
  | CR2
  | CR3
  | NEF
  | ARW
  | DNG
  | RAF
  | ORF
  | PEF
  | RW2
  deriving DecidableEq, Repr, Inhabited

/-- raw_extractor.h ErrorCode. -/
inductive ErrorCode where
  | SUCCESS
  | FILE_NOT_FOUND
  | FILE_ACCESS_DENIED
  | INVALID_FORMAT
  | CORRUPTED_FILE
  | TIMEOUT_EXCEEDED
  | MEMORY_LIMIT_EXCEEDED
  | NO_PREVIEWS_FOUND
  | VALIDATION_FAILED
  | UNKNOWN_ERROR
  deriving DecidableEq, Repr, Inhabited

/-- raw_extractor.h ExtractionOptions. -/
structure ExtractionOptions where
  targetMinSize : Nat
  targetMaxSize : Nat
  preferredQuality : PreviewQuality
  useCache : Bool
  timeoutMs : Nat
  maxMemoryMb : Nat
  includeMetadata : Bool
  strictValidation : Bool
  deriving DecidableEq, Repr

/-- The default ExtractionOptions of the header. -/
def defaultOptions : ExtractionOptions :=
  { targetMinSize := 200 * 1024, targetMaxSize := 3 * 1024 * 1024,
    preferredQuality := PreviewQuality.PREVIEW, useCache := false,
    timeoutMs := 5000, maxMemoryMb := 100, includeMetadata := false,
    strictValidation := true }

/-- raw_extractor.h ErrorInfo. -/
structure ErrorInfo where
  code : ErrorCode
  message : String
  context : String
  deriving DecidableEq, Repr

/-- raw_extractor.h ExtractionResult. -/
structure ExtractionResult where
  success : Bool
  errorInfo : ErrorInfo
  error : String
  format : RawFormat
  preview : PreviewInfo
  jpegData : List Nat
  deriving DecidableEq, Repr

/-- An ExtractionResult already holding a format, after setError. -/
def errRes (fmt : RawFormat) (c : ErrorCode) (msg : String) :
    ExtractionResult :=
  { success := false, errorInfo := ⟨c, msg, ""⟩, error := msg,
    format := fmt, preview := previewDefault, jpegData := [] }

/-- The per-process state of the three function-static SubIFD counters. -/
structure CounterState where
  nefCtr : Nat
  cr2Ctr : Nat
  arwCtr : Nat
  deriving DecidableEq, Repr

/-- The counter state at process start. -/
def st0 : CounterState := { nefCtr := 0, cr2Ctr := 0, arwCtr := 0 }

/-- RawExtractor::checkMemoryUsage, modelled as its fallback branch
(requested allocation against the limit); the OS process-RSS term is
declared out of scope by the spec. -/
def checkMemoryUsage (currentMemory : Nat) (opts : ExtractionOptions) : Bool :=
  currentMemory ≤ opts.maxMemoryMb * 1024 * 1024

/-- The TIFF-header test of validateFile and detectFormatFast. -/
def isTiffHeader (d : List Nat) : Bool :=
  (byteAt d 0 = 0x49 ∧ byteAt d 1 = 0x49 ∧ byteAt d 2 = 0x2A ∧
    byteAt d 3 = 0) ∨
  (byteAt d 0 = 0x4D ∧ byteAt d 1 = 0x4D ∧ byteAt d 2 = 0 ∧
    byteAt d 3 = 0x2A)

/-- RawExtractor::validateFile: a null pointer is INVALID_FORMAT, fewer
than 16 bytes is CORRUPTED_FILE, then only a TIFF header or an ftyp box
type counts as valid. -/
def validateFile (dOpt : Option (List Nat)) : ErrorCode :=
  match dOpt with
  | none => ErrorCode.INVALID_FORMAT
  | some d =>
    if d.length < 16 then ErrorCode.CORRUPTED_FILE
    else
      let tiff := isTiffHeader d
      let ftyp := 20 ≤ d.length ∧ readUInt32 d 4 false = 0x66747970
      if tiff ∨ ftyp then ErrorCode.SUCCESS else ErrorCode.INVALID_FORMAT

/-- ASCII "Canon". -/
def canonBytes : List Nat := [67, 97, 110, 111, 110]

/-- The signature scan of detectFormatFast over the first
`min 100 (size - 5)` offsets, in the source's per-offset order
Canon, NIKON, SONY. -/
def detectFormatFastScan (d : List Nat) (bound : Nat) : RawFormat :=
  match (List.range bound).findSome?
      (fun i =>
        if matchBytes d i canonBytes then some RawFormat.CR2
        else if matchBytes d i nikonBytes then some RawFormat.NEF
        else if matchBytes d i sonyBytes then some RawFormat.ARW
        else none) with
  | some f => f
  | none => RawFormat.DNG

/-- RawExtractor::detectFormatFast. -/
def detectFormatFast (d : List Nat) : RawFormat :=
  if d.length < 16 then RawFormat.UNKNOWN
  else if isTiffHeader d then
    if 100 < d.length then detectFormatFastScan d (min 100 (d.length - 5))
    else RawFormat.DNG
  else
    let cr3Hit :=
      20 ≤ d.length ∧ readUInt32 d 4 false = 0x66747970 ∧
        (readUInt32 d 8 false = 0x63723320 ∨ readUInt32 d 8 false = 0x63727820)
    if cr3Hit then RawFormat.CR3
    else if 16 ≤ d.length ∧ matchBytes d 0 rafMagic then RawFormat.RAF
    else RawFormat.UNKNOWN

/-- RawExtractor::detectFormat: every canParse in order, first match
wins. -/
def detectFormat (d : List Nat) : RawFormat :=
  if cr2CanParse d then RawFormat.CR2
  else if cr3CanParse d then RawFormat.CR3
  else if nefCanParse d then RawFormat.NEF
  else if arwCanParse d then RawFormat.ARW
  else if dngCanParse d then RawFormat.DNG
  else if rafCanParse d then RawFormat.RAF
  else if orfCanParse d then RawFormat.ORF
  else if rw2CanParse d then RawFormat.RW2
  else RawFormat.UNKNOWN

/-- RawExtractor::getAllPreviews, threading the per-process counter
state. -/
def getAllPreviews (fuel : Nat) (st : CounterState) (d : List Nat)
    (fmt : RawFormat) : Option (List PreviewInfo × CounterState) :=
  match fmt with
  | RawFormat.CR2 =>
    (cr2ExtractPreviews fuel st.cr2Ctr d).map
      fun r => (r.1, { st with cr2Ctr := r.2 })
  | RawFormat.CR3 => some (cr3ExtractPreviews d, st)
  | RawFormat.NEF =>
    (nefExtractPreviews fuel st.nefCtr d).map
      fun r => (r.1, { st with nefCtr := r.2 })
  | RawFormat.ARW =>
    (arwExtractPreviews fuel st.arwCtr d).map
      fun r => (r.1, { st with arwCtr := r.2 })
  | RawFormat.DNG => (dngExtractPreviews fuel d).map fun l => (l, st)
  | RawFormat.RAF => some (rafExtractPreviews d, st)
  | RawFormat.ORF => (orfExtractPreviews fuel d).map fun l => (l, st)
  | RawFormat.RW2 => (rw2ExtractPreviews fuel d).map fun l => (l, st)
  | _ => some ([], st)

/-- The format dispatch of RawExtractor::selectBestPreview. -/
def formatSelectBest (fmt : RawFormat) (previews : List PreviewInfo) :
    PreviewInfo :=
  match fmt with
  | RawFormat.CR2 => cr2SelectBest previews
  | RawFormat.CR3 => cr3SelectBest previews
  | RawFormat.NEF => nefSelectBest previews
  | RawFormat.ARW => arwSelectBest previews
  | RawFormat.DNG => dngSelectBest previews
  | RawFormat.RAF => rafSelectBest previews
  | RawFormat.ORF => orfSelectBest previews
  | RawFormat.RW2 => rw2SelectBest previews
  | _ => previewDefault

/-- Insertion used to model std::sort (the comparator is a strict order;
among comparator-ties std::sort leaves the order unspecified and no claim
below depends on it). -/
def insertByLt (lt : PreviewInfo → PreviewInfo → Bool) (x : PreviewInfo) :
    List PreviewInfo → List PreviewInfo
  | [] => [x]
  | y :: ys => if lt x y then x :: y :: ys else y :: insertByLt lt x ys

/-- Sort by the given strict comparator. -/
def sortByLt (lt : PreviewInfo → PreviewInfo → Bool)
    (l : List PreviewInfo) : List PreviewInfo :=
  l.foldr (insertByLt lt) []

/-- The sort comparator of RawExtractor::selectBestPreview: preferred
quality match first, then larger size. -/
def selectPrefLt (opts : ExtractionOptions) (a b : PreviewInfo) : Bool :=
  let aQ := a.quality = opts.preferredQuality
  let bQ := b.quality = opts.preferredQuality
  if aQ ≠ bQ then aQ ∧ ¬ bQ else b.size < a.size

/-- RawExtractor::selectBestPreview: the vendor pick when inside the
target range, else filter to the range (falling back to all), sort and
take the head. -/
def selectBestPreviewTop (previews : List PreviewInfo)
    (opts : ExtractionOptions) (fmt : RawFormat) : PreviewInfo :=
  if previews = [] then previewDefault
  else
    let formatBest := formatSelectBest fmt previews
    if opts.targetMinSize ≤ formatBest.size ∧
        formatBest.size ≤ opts.targetMaxSize then formatBest
    else
      let inRange := previews.filter
        (fun p => opts.targetMinSize ≤ p.size ∧ p.size ≤ opts.targetMaxSize)
      let candidates := if inRange = [] then previews else inRange
      (sortByLt (selectPrefLt opts) candidates).headD previewDefault

/-- RawExtractor::validatePreview (total semantics; the bounds check sum
is `uint32_t`). -/
def validatePreview (d : List Nat) (p : PreviewInfo)
    (opts : ExtractionOptions) : Bool :=
  if u32 (p.offset + p.size) > d.length then false
  else if ¬ checkMemoryUsage p.size opts then false
  else if opts.strictValidation then isValidJpeg (d.drop p.offset) p.size
  else 2 ≤ p.size ∧ byteAt d p.offset = 0xFF ∧ byteAt d (p.offset + 1) = 0xD8

/-- RawExtractor::validatePreview under checked reads (used for the
bounds-safety claim): `none` at the first out-of-bounds read. -/
def validatePreviewChk (d : List Nat) (p : PreviewInfo)
    (opts : ExtractionOptions) : Option Bool :=
  if u32 (p.offset + p.size) > d.length then some false
  else if ¬ checkMemoryUsage p.size opts then some false
  else if opts.strictValidation then isValidJpegChk d p.offset p.size
  else if 2 ≤ p.size then
    match d.get? p.offset with
    | none => none
    | some b0 =>
      if b0 ≠ 0xFF then some false
      else
        match d.get? (p.offset + 1) with
        | none => none
        | some b1 => some (b1 = 0xD8)
  else some false

/-- RawExtractor::extractJpegData: a fresh copy of the preview range. -/
def extractJpegData (d : List Nat) (p : PreviewInfo) : List Nat :=
  if u32 (p.offset + p.size) > d.length then []
  else (d.drop p.offset).take p.size

/-- RawExtractor::extractPreviewFromBuffer.  `dOpt = none` models a null
data pointer; the timeout checkpoints are modelled as never expired (wall
clock is out of the pure embedding); the whole call is `none` only when a
fuelled TIFF walk inside the chosen parser exceeds `fuel`. -/
def extractFromBuffer (fuel : Nat) (st : CounterState)
    (dOpt : Option (List Nat)) (opts : ExtractionOptions) :
    Option (ExtractionResult × CounterState) :=
  match dOpt with
  | none =>
    some (errRes RawFormat.UNKNOWN ErrorCode.INVALID_FORMAT
      "Invalid data buffer", st)
  | some d =>
    if d.length < 16 then
      some (errRes RawFormat.UNKNOWN ErrorCode.INVALID_FORMAT
        "Invalid data buffer", st)
    else if 200 * 1024 * 1024 < d.length ∧ ¬ checkMemoryUsage d.length opts then
      some (errRes RawFormat.UNKNOWN ErrorCode.MEMORY_LIMIT_EXCEEDED
        "File size exceeds memory limit", st)
    else
      match validateFile (some d) with
      | ErrorCode.SUCCESS =>
        let fmt0 := detectFormatFast d
        let fmt := if fmt0 = RawFormat.UNKNOWN then detectFormat d else fmt0
        if fmt = RawFormat.UNKNOWN then
          some (errRes RawFormat.UNKNOWN ErrorCode.INVALID_FORMAT
            "Unsupported or unrecognized RAW format", st)
        else
          match getAllPreviews fuel st d fmt with
          | none => none
          | some (previews, st2) =>
            if previews = [] then
              some (errRes fmt ErrorCode.NO_PREVIEWS_FOUND
                "No previews found in RAW file", st2)
            else
              let sel := selectBestPreviewTop previews opts fmt
              if sel.offset = 0 ∨ sel.size = 0 then
                some ({ errRes fmt ErrorCode.NO_PREVIEWS_FOUND
                  "No suitable preview found matching criteria" with
                    preview := sel }, st2)
              else if ¬ validatePreview d sel opts then
                some ({ errRes fmt ErrorCode.VALIDATION_FAILED
                  "Selected preview failed validation" with
                    preview := sel }, st2)
              else
                let jp := extractJpegData d sel
                if jp = [] then
                  some ({ errRes fmt ErrorCode.UNKNOWN_ERROR
                    "Failed to extract JPEG data" with preview := sel }, st2)
                else
                  some (⟨true, ⟨ErrorCode.SUCCESS, "", ""⟩, "", fmt, sel, jp⟩,
                    st2)
      | e =>
        some (errRes RawFormat.UNKNOWN e
          (if e = ErrorCode.INVALID_FORMAT then "Invalid file format"
           else "Corrupted file"), st)

/-! Medium/full position-indexed selection (main.cpp). -/

/-- main.cpp PreviewMapping. -/
structure PreviewMapping where
  fullPreviewIndex : Int
  mediumPreviewIndex : Int
  useSmartSelection : Bool
  deriving DecidableEq, Repr

/-- main.cpp nikonModelMappings.  The source initialises a
`std::map<std::string, PreviewMapping>`; getNefMapping iterates it in
ascending key order (C++ string comparison), so the entries are listed
here in that order. -/
def nikonModelMappings : List (String × PreviewMapping) :=
  [("D3500", ⟨0, 1, false⟩),
   ("D5600", ⟨0, 1, false⟩),
   ("D6", ⟨-1, -2, true⟩),
   ("D610", ⟨0, 1, false⟩),
   ("D7200", ⟨0, 1, false⟩),
   ("D750", ⟨0, 1, false⟩),
   ("D7500", ⟨0, 1, false⟩),
   ("D780", ⟨-1, -2, true⟩),
   ("D810", ⟨0, 1, false⟩),
   ("D850", ⟨-1, -2, true⟩),
   ("Z 30", ⟨-1, -2, true⟩),
   ("Z 5", ⟨-1, -2, true⟩),
   ("Z 6", ⟨0, 1, false⟩),
   ("Z 6II", ⟨-1, -2, true⟩),
   ("Z 6III", ⟨-1, -2, true⟩),
   ("Z 7II", ⟨-1, -2, true⟩),
   ("Z 8", ⟨-1, -2, true⟩),
   ("Z 9", ⟨-1, -2, true⟩),
   ("Z fc", ⟨-1, -2, true⟩)]

/-- `std::string::find(pat) != npos`: `pat` occurs as a contiguous
substring of `hay`. -/
def strContainsSub (pat : List Char) : List Char → Bool
  | [] => pat.isPrefixOf []
  | c :: t => if pat.isPrefixOf (c :: t) then true else strContainsSub pat t

/-- main.cpp getNefMapping: the first map entry (in ascending key order)
whose key occurs in the model string; smart selection for unknown
models. -/
def getNefMapping (model : String) : PreviewMapping :=
  match nikonModelMappings.find?
      (fun e => strContainsSub e.1.toList model.toList) with
  | some e => e.2
  | none => ⟨-1, -2, true⟩

/-- main.cpp getLargestPreview (std::max_element with a strictly-less
comparator keeps the first maximum). -/
def getLargestPreview (previews : List PreviewInfo) : PreviewInfo :=
  match previews with
  | [] => previewDefault
  | h :: t => t.foldl (fun best p => if best.size < p.size then p else best) h

/-- main.cpp getSecondLargestPreview: sort by size descending, take
index 1. -/
def getSecondLargestPreview (previews : List PreviewInfo) : PreviewInfo :=
  if previews.length ≤ 1 then previews.headD previewDefault
  else (sortByLt (fun a b => b.size < a.size) previews).getD 1 previewDefault

/-- The NEF branch of ExtractMediumPreview in main.cpp, given the camera
model string and the candidate list.  A negative positional index would
index the vector out of bounds in the source; the map's positional
entries are non-negative, so `toNat` is exact on every reachable case. -/
def selectMediumNef (model : String) (all : List PreviewInfo) : PreviewInfo :=
  let m := getNefMapping model
  if m.useSmartSelection ∨ m.mediumPreviewIndex = -2 then
    getSecondLargestPreview all
  else if m.mediumPreviewIndex < (all.length : Int) then
    all.getD m.mediumPreviewIndex.toNat previewDefault
  else if 1 < all.length then all.getD 1 previewDefault
  else all.getD 0 previewDefault

/-- The NEF branch of ExtractFullPreview in main.cpp. -/
def selectFullNef (model : String) (all : List PreviewInfo) : PreviewInfo :=
  let m := getNefMapping model
  if m.useSmartSelection ∨ m.fullPreviewIndex = -1 then
    getLargestPreview all
  else if m.fullPreviewIndex < (all.length : Int) then
    all.getD m.fullPreviewIndex.toNat previewDefault
  else all.getD 0 previewDefault

/-! Concrete inputs used by the claims. -/

/-- A 14-byte little-endian TIFF whose single IFD (at offset 8, zero
entries) names itself as its own next IFD: the next-IFD offset at bytes
10..13 is 8 again. -/
def cyclicTiff : List Nat :=
  [0x49, 0x49, 0x2A, 0x00, 8, 0, 0, 0,
   0, 0,
   8, 0, 0, 0]

/-- A minimal well-formed NEF: little-endian TIFF, IFD0 at 16 with a Make
tag reading "NIKON" (bytes 8..13) and one SubIFD at 46, whose
StripOffsets/StripByteCounts point at the 8-byte JPEG at 76. -/
def nefFix : List Nat :=
  [0x49, 0x49, 0x2A, 0x00,
   16, 0, 0, 0,
   78, 73, 75, 79, 78, 0,
   0, 0,
   2, 0,
   0x0F, 0x01, 2, 0, 6, 0, 0, 0, 8, 0, 0, 0,
   0x4A, 0x01, 4, 0, 1, 0, 0, 0, 46, 0, 0, 0,
   0, 0, 0, 0,
   2, 0,
   0x11, 0x01, 4, 0, 1, 0, 0, 0, 76, 0, 0, 0,
   0x17, 0x01, 4, 0, 1, 0, 0, 0, 8, 0, 0, 0,
   0, 0, 0, 0,
   0xFF, 0xD8, 0, 0, 0xFF, 0xD9, 0, 0]

/-- The candidate nefFix yields when the process-wide SubIFD counter is
still 0. -/
def nefFixPreview0 : PreviewInfo :=
  { offset := 76, size := 8, width := 0, height := 0, isJpeg := false,
    subfileType := 0, ifdIndex := -1, quality := PreviewQuality.THUMBNAIL,
    priority := 5, orientation := 1, type := "NEF_SubIFD0" }

/-- The candidate the same bytes yield on the next call, counter 1. -/
def nefFixPreview1 : PreviewInfo :=
  { nefFixPreview0 with type := "NEF_SubIFD1" }

/-- A minimal CR2 whose two main IFDs (at 10 and 40) carry identical
StripOffsets/StripByteCounts, both naming the 8-byte JPEG at 70. -/
def cr2DupFix : List Nat :=
  [0x49, 0x49, 0x2A, 0x00,
   10, 0, 0, 0,
   0x43, 0x52,
   2, 0,
   0x11, 0x01, 4, 0, 1, 0, 0, 0, 70, 0, 0, 0,
   0x17, 0x01, 4, 0, 1, 0, 0, 0, 8, 0, 0, 0,
   40, 0, 0, 0,
   2, 0,
   0x11, 0x01, 4, 0, 1, 0, 0, 0, 70, 0, 0, 0,
   0x17, 0x01, 4, 0, 1, 0, 0, 0, 8, 0, 0, 0,
   0, 0, 0, 0,
   0xFF, 0xD8, 0, 0, 0xFF, 0xD9, 0, 0]

/-- The RAF fixture of the spec: "FUJIFILMCCD-RAW", big-endian u32 1024
at offset 84 and 512 at offset 88, and a 512-byte JPEG at 1024. -/
def rafFix1536 : List Nat :=
  rafMagic ++ [0] ++ List.replicate 68 0 ++
  [0, 0, 4, 0] ++ [0, 0, 2, 0] ++ List.replicate 932 0 ++
  [0xFF, 0xD8] ++ List.replicate 508 0 ++ [0xFF, 0xD9]

/-- The candidate the RAF parser emits for rafFix1536. -/
def rafFixPreview : PreviewInfo :=
  { offset := 1024, size := 512, width := 0, height := 0, isJpeg := true,
    subfileType := 0, ifdIndex := -1, quality := PreviewQuality.THUMBNAIL,
    priority := 7, orientation := 1, type := "" }

/-- A hostile 74-byte buffer that is simultaneously a JPEG (SOI at 0, EOI
at 72) and a default-endianness TIFF whose IFD0 (at 12) carries the Sony
tags 0x7200 (value 0) and 0x7201 pointing at a SubIFD (at 42) whose
StripOffsets entry is 0 and StripByteCounts entry is 74. -/
def arwChimera : List Nat :=
  [0xFF, 0xD8, 0x2A, 0x00,
   12, 0, 0, 0,
   0, 0, 0, 0,
   2, 0,
   0x00, 0x72, 4, 0, 1, 0, 0, 0, 0, 0, 0, 0,
   0x01, 0x72, 4, 0, 1, 0, 0, 0, 42, 0, 0, 0,
   0, 0, 0, 0,
   2, 0,
   0x11, 0x01, 4, 0, 1, 0, 0, 0, 0, 0, 0, 0,
   0x17, 0x01, 4, 0, 1, 0, 0, 0, 74, 0, 0, 0,
   0, 0, 0, 0,
   0xFF, 0xD9]

/-- Three NEF candidates of sizes 5 KiB, 2 MiB and 8 MiB (the Z 9
scenario of the spec). -/
def zPrev5k : PreviewInfo := { previewDefault with offset := 100, size := 5120 }

/-- The 2 MiB candidate of the Z 9 scenario. -/
def zPrev2m : PreviewInfo :=
  { previewDefault with offset := 200, size := 2097152 }

/-- The 8 MiB candidate of the Z 9 scenario. -/
def zPrev8m : PreviewInfo :=
  { previewDefault with offset := 300, size := 8388608 }

/-- A preview whose 32-bit `offset + size` wraps: offset 0xFFFFFFFC,
size 5 (sum 1 mod 2^32). -/
def wrapPreview : PreviewInfo :=
  { previewDefault with offset := 4294967292, size := 5 }

/-- Sixteen zero bytes. -/
def zeros16 : List Nat := List.replicate 16 0

/-- The twelve-byte zero buffer of the malformed-input scenario. -/
def zeros12 : List Nat := List.replicate 12 0

/-- nefFix padded past 100 bytes so that detectFormatFast runs its
signature scan (finding "NIKON") and routes the buffer to the NEF
parser; the whole pipeline then succeeds on it. -/
def nefFixPad : List Nat := nefFix ++ List.replicate 20 0

/-- The result record of the successful extraction from nefFixPad. -/
def nefFixPadRes : ExtractionResult :=
  ((extractFromBuffer 5 st0 (some nefFixPad) defaultOptions).getD
    (errRes RawFormat.UNKNOWN ErrorCode.UNKNOWN_ERROR "", st0)).1

/-! Theorems. -/

set_option maxRecDepth 1000000

/-- The single IFD of cyclicTiff parses to zero tags and a next-IFD
offset of 8 — itself. -/
theorem parseIfd_cyclicTiff : parseIfd cyclicTiff true 8 =
    some { tags := [], nextIfdOffset := 8 } := by decide

/-- One unfolding of the findPreviews walk on cyclicTiff: the loop guard
holds and the IFD parses, so the walk either exhausts its fuel or steps
to offset 8 again. -/
theorem tiffFindPreviewsAux_cyclic_step (fuel idx : Nat)
    (acc : List PreviewInfo) :
    tiffFindPreviewsAux cyclicTiff true (fuel + 1) 8 idx acc =
      tiffFindPreviewsAux cyclicTiff true fuel 8 (idx + 1)
        (acc ++ findPreviewsStep cyclicTiff true
          { tags := [], nextIfdOffset := 8 } idx) := by
  rw [tiffFindPreviewsAux, parseIfd_cyclicTiff]
  norm_num [cyclicTiff]

/-- The walk on cyclicTiff exhausts any amount of fuel. -/
theorem tiffFindPreviewsAux_cyclic (fuel : Nat) :
    ∀ (idx : Nat) (acc : List PreviewInfo),
      tiffFindPreviewsAux cyclicTiff true fuel 8 idx acc = none := by
  induction fuel with
  | zero =>
    intro idx acc
    rw [tiffFindPreviewsAux, parseIfd_cyclicTiff]
    norm_num [cyclicTiff]
  | succ n ih =>
    intro idx acc
    rw [tiffFindPreviewsAux_cyclic_step]
    exact ih _ _

/-- C2.  The claim says find_previews terminates on every TIFF, even a
cyclic one, ending the IFD walk at a next-IFD offset of 0, a
monotonic-progress violation, or a depth cap.  The source walk
(`while (currentOffset != 0 && currentOffset < size)` in
TiffParser::findPreviews) has no depth cap, no visited set and no
monotonicity check, so on cyclicTiff — whose IFD names itself as its own
next IFD — it never terminates: in the fuelled embedding, where `none`
means the loop has not exited within `fuel` iterations, no amount of
fuel suffices. -/
theorem findPreviews_cyclic_never_terminates (fuel : Nat) :
    tiffFindPreviews fuel cyclicTiff = none := by
  have h : tiffParseHeader cyclicTiff = some (true, 8) := by decide
  rw [tiffFindPreviews, h]
  exact tiffFindPreviewsAux_cyclic fuel 0 []

/-- C1.  The claim says every read offset is bounds-checked before the
read, naming the searches of find_jpeg_start/find_jpeg_end on sizes 0 or
1 and the `offset + size <= file_size` check of validate_preview.  Under
the checked-memory semantics (`none` = a read outside the buffer):
find_jpeg_start and find_jpeg_end fault on an empty slice, because the
loop bound `size - 1` underflows in `size_t` and the first iteration
already reads byte 0 resp. byte 2 of a zero-length buffer; and
validate_preview faults on a preview whose 32-bit `offset + size` wraps
(0xFFFFFFFC + 5 = 1 mod 2^32), because the wrapped sum passes the bounds
check — as the last two conjuncts state, the checked sum is within the
16-byte file although the true range is far outside it — and the
subsequent JPEG validation reads at offset 0xFFFFFFFC. -/
theorem unchecked_reads_exist :
    findJpegStartChk [] 0 = none ∧
    findJpegEndChk [] 0 0 = none ∧
    validatePreviewChk zeros16 wrapPreview defaultOptions = none ∧
    u32 (wrapPreview.offset + wrapPreview.size) ≤ zeros16.length ∧
    zeros16.length < wrapPreview.offset + wrapPreview.size := by decide

/-- C3.  The claim says two successive extractions of the same bytes in
one process give identical PreviewInfo lists, type strings included.  The
NEF parser names SubIFD candidates with a function-static counter
(`static int subIfdCounter` in NefParser::extractPreviews), modelled as
the threaded counter: on nefFix a first call (counter 0) yields the type
"NEF_SubIFD0" and leaves the counter at 1, so the immediately following
call on the same bytes yields "NEF_SubIFD1" — a different list. -/
theorem nef_second_call_differs :
    nefExtractPreviews 5 0 nefFix = some ([nefFixPreview0], 1) ∧
    nefExtractPreviews 5 1 nefFix = some ([nefFixPreview1], 2) ∧
    nefFixPreview0 ≠ nefFixPreview1 := by decide

/-- C5.  The claim lists which Nikon models use positional selection and
which use smart (size-based) selection, matching the entries of
nikonModelMappings.  But getNefMapping scans the std::map in ascending
key order and matches by substring: "Z 6" precedes and is a substring of
"Z 6II" and "Z 6III", so those models get the positional mapping
(0, 1, false) although their own map entries say smart; "D6" precedes
and is a substring of "D610", so the D610 gets smart selection although
its entry says positional.  The Z 9 scenario itself behaves as claimed:
smart mode picks the 8 MiB candidate as full and the 2 MiB candidate as
medium. -/
theorem nef_mapping_shadowed :
    getNefMapping "NIKON Z 6III" = ⟨0, 1, false⟩ ∧
    getNefMapping "NIKON Z 6II" = ⟨0, 1, false⟩ ∧
    getNefMapping "NIKON D610" = ⟨-1, -2, true⟩ ∧
    (nikonModelMappings.find? (fun e => e.1 == "Z 6III")).map Prod.snd =
      some ⟨-1, -2, true⟩ ∧
    (nikonModelMappings.find? (fun e => e.1 == "D610")).map Prod.snd =
      some ⟨0, 1, false⟩ ∧
    getNefMapping "NIKON Z 9" = ⟨-1, -2, true⟩ ∧
    selectMediumNef "NIKON Z 9" [zPrev5k, zPrev2m, zPrev8m] = zPrev2m ∧
    selectFullNef "NIKON Z 9" [zPrev5k, zPrev2m, zPrev8m] = zPrev8m := by
  decide

/-- C6.  The claim says a RAF with JPEG offset 1024 and length 512 yields
a successful result with format RAF, priority 7 and THUMBNAIL quality.
The RAF parser itself emits exactly that candidate, and detect_format_fast
recognises the buffer as RAF; but validate_file accepts only TIFF and
ftyp headers, so extract_from_buffer rejects every RAF buffer with
INVALID_FORMAT before the parser is ever reached. -/
theorem raf_pipeline_rejected :
    rafExtractPreviews rafFix1536 = [rafFixPreview] ∧
    rafFixPreview.offset = 1024 ∧ rafFixPreview.size = 512 ∧
    rafFixPreview.priority = 7 ∧
    rafFixPreview.quality = PreviewQuality.THUMBNAIL ∧
    detectFormatFast rafFix1536 = RawFormat.RAF ∧
    extractFromBuffer 5 st0 (some rafFix1536) defaultOptions =
      some (errRes RawFormat.UNKNOWN ErrorCode.INVALID_FORMAT
        "Invalid file format", st0) := by decide

/-- C7.  A null data pointer or a buffer of fewer than 16 bytes makes
extract_from_buffer return INVALID_FORMAT, although validate_file on its
own maps the same short buffer to CORRUPTED_FILE — the pipeline's early
guard fires first. -/
theorem short_buffer_invalid_format (fuel : Nat) (st : CounterState)
    (opts : ExtractionOptions) (d : List Nat) (h : d.length < 16) :
    extractFromBuffer fuel st (some d) opts =
      some (errRes RawFormat.UNKNOWN ErrorCode.INVALID_FORMAT
        "Invalid data buffer", st) ∧
    extractFromBuffer fuel st none opts =
      some (errRes RawFormat.UNKNOWN ErrorCode.INVALID_FORMAT
        "Invalid data buffer", st) ∧
    validateFile (some d) = ErrorCode.CORRUPTED_FILE := by
  refine ⟨?_, rfl, ?_⟩
  · simp [extractFromBuffer, h]
  · simp [validateFile, h]

/-- Witness for C7: the 12-byte all-zero buffer of the spec scenario. -/
theorem short_buffer_invalid_format_witness :
    extractFromBuffer 1 st0 (some zeros12) defaultOptions =
      some (errRes RawFormat.UNKNOWN ErrorCode.INVALID_FORMAT
        "Invalid data buffer", st0) ∧
    extractFromBuffer 1 st0 none defaultOptions =
      some (errRes RawFormat.UNKNOWN ErrorCode.INVALID_FORMAT
        "Invalid data buffer", st0) ∧
    validateFile (some zeros12) = ErrorCode.CORRUPTED_FILE :=
  short_buffer_invalid_format 1 st0 defaultOptions zeros12 (by decide)

/-- The EOI scan from index `n` succeeds exactly when bytes `i, i + 1`
are `FF D9` for some `2 < i ≤ n`. -/
theorem hasEoiFrom_eq_true_iff (d : List Nat) :
    ∀ n, hasEoiFrom d n = true ↔
      ∃ i, 2 < i ∧ i ≤ n ∧ byteAt d i = 0xFF ∧ byteAt d (i + 1) = 0xD9 := by
  intro n
  induction n using Nat.strong_induction_on with
  | _ n ih =>
    rcases n with _ | _ | _ | m
    · simp only [hasEoiFrom, Bool.false_eq_true, false_iff]
      rintro ⟨i, h1, h2, -⟩; omega
    · simp only [hasEoiFrom, Bool.false_eq_true, false_iff]
      rintro ⟨i, h1, h2, -⟩; omega
    · simp only [hasEoiFrom, Bool.false_eq_true, false_iff]
      rintro ⟨i, h1, h2, -⟩; omega
    · rw [show m + 1 + 1 + 1 = m + 3 by omega]
      simp only [hasEoiFrom]
      split
      · next h =>
        simp only [true_iff]
        exact ⟨m + 3, by omega, Nat.le_refl _, h.1, h.2⟩
      · next h =>
        rw [ih (m + 2) (by omega)]
        constructor
        · rintro ⟨i, h1, h2, h3, h4⟩
          exact ⟨i, h1, by omega, h3, h4⟩
        · rintro ⟨i, h1, h2, h3, h4⟩
          refine ⟨i, h1, ?_, h3, h4⟩
          by_contra hc
          have hi : i = m + 3 := by omega
          subst hi
          exact h ⟨h3, h4⟩

/-- C8.  is_valid_jpeg(data, size) is true exactly when size is at least
4, the slice starts FF D8, and bytes `i, i + 1` are `FF D9` for some `i`
with `2 < i ≤ size - 2` — the positions the backward scan
`for (i = size - 2; i > 2; i--)` visits.  The pair at offset 2 is outside
that scan, so the minimal 4-byte JPEG FF D8 FF D9, whose EOI sits exactly
at offset 2, is rejected (second conjunct). -/
theorem isValidJpeg_characterisation :
    (∀ (d : List Nat) (size : Nat),
      isValidJpeg d size = true ↔
        (4 ≤ size ∧ byteAt d 0 = 0xFF ∧ byteAt d 1 = 0xD8 ∧
          ∃ i, 2 < i ∧ i ≤ size - 2 ∧ byteAt d i = 0xFF ∧
            byteAt d (i + 1) = 0xD9)) ∧
    isValidJpeg [0xFF, 0xD8, 0xFF, 0xD9] 4 = false := by
  constructor
  · intro d size
    unfold isValidJpeg
    split_ifs with h1 h2 h3
    · simp only [Bool.false_eq_true, false_iff]
      rintro ⟨h4, -⟩; omega
    · simp only [Bool.false_eq_true, false_iff]
      rintro ⟨-, h4, -⟩; exact h2 h4
    · simp only [Bool.false_eq_true, false_iff]
      rintro ⟨-, -, h4, -⟩; exact h3 h4
    · rw [hasEoiFrom_eq_true_iff]
      push_neg at h2 h3
      constructor
      · rintro ⟨i, hi1, hi2, hi3, hi4⟩
        exact ⟨by omega, h2, h3, i, hi1, hi2, hi3, hi4⟩
      · rintro ⟨-, -, -, i, hi1, hi2, hi3, hi4⟩
        exact ⟨i, hi1, hi2, hi3, hi4⟩
  · decide

/-- On a buffer of at least 16 bytes validateFile returns SUCCESS or
INVALID_FORMAT, never CORRUPTED_FILE. -/
theorem validateFile_ne_corrupted (d : List Nat) (h : 16 ≤ d.length) :
    validateFile (some d) ≠ ErrorCode.CORRUPTED_FILE := by
  simp only [validateFile]
  split_ifs with h1 h2
  · omega
  · simp
  · simp

/-- C9.  extract_from_buffer never reports CORRUPTED_FILE: a buffer
shorter than 16 bytes hits the INVALID_FORMAT guard before validate_file
can say CORRUPTED_FILE, on longer buffers validate_file only answers
SUCCESS or INVALID_FORMAT, and every later failure path uses another
code (NO_PREVIEWS_FOUND, VALIDATION_FAILED, MEMORY_LIMIT_EXCEEDED,
UNKNOWN_ERROR). -/
theorem never_corrupted_file (fuel : Nat) (st : CounterState)
    (dOpt : Option (List Nat)) (opts : ExtractionOptions)
    (res : ExtractionResult) (st2 : CounterState)
    (h : extractFromBuffer fuel st dOpt opts = some (res, st2)) :
    res.errorInfo.code ≠ ErrorCode.CORRUPTED_FILE := by
  rcases dOpt with _ | d
  · simp only [extractFromBuffer, Option.some.injEq, Prod.mk.injEq] at h
    rcases h with ⟨h1, -⟩
    subst h1
    simp [errRes]
  · simp only [extractFromBuffer] at h
    repeat' split at h
    all_goals
      first
      | exact Option.noConfusion h
      | (simp only [Option.some.injEq, Prod.mk.injEq] at h
         rcases h with ⟨h1, -⟩
         subst h1
         first
         | (simp [errRes]; done)
         | decide
         | (intro hc
            exact validateFile_ne_corrupted d (by omega) hc))

/-- Witness for C9: the null-pointer call. -/
theorem never_corrupted_file_witness :
    (errRes RawFormat.UNKNOWN ErrorCode.INVALID_FORMAT
      "Invalid data buffer").errorInfo.code ≠ ErrorCode.CORRUPTED_FILE :=
  never_corrupted_file 1 st0 none defaultOptions _ st0 rfl

/-- A validated JPEG is at least 4 bytes long. -/
theorem isValidJpeg_size_ge (d : List Nat) (s : Nat)
    (h : isValidJpeg d s = true) : 4 ≤ s := by
  unfold isValidJpeg at h
  split_ifs at h with h1 h2 h3
  omega

/-- The candidate guard of the vendor loops implies a positive offset and
size. -/
theorem vendorGuard_spec (d : List Nat) (p : PreviewInfo)
    (hg : vendorGuard d p = true) : 0 < p.offset ∧ 0 < p.size := by
  simp only [vendorGuard, decide_eq_true_eq] at hg
  exact ⟨hg.1, hg.2.1⟩

/-- Elements of a fold whose step either keeps the accumulator or adds
elements satisfying `P` (generic helper for the vendor second passes). -/
theorem foldl_guarded_mem {α : Type} (f : List PreviewInfo → α → List PreviewInfo)
    (P : PreviewInfo → Prop)
    (hf : ∀ acc x q, q ∈ f acc x → q ∈ acc ∨ P q) :
    ∀ (l : List α) (acc : List PreviewInfo) (q : PreviewInfo),
      q ∈ l.foldl f acc → q ∈ acc ∨ P q := by
  intro l
  induction l with
  | nil => intro acc q hq; exact Or.inl hq
  | cons x xs ih =>
    intro acc q hq
    rw [List.foldl_cons] at hq
    rcases ih (f acc x) q hq with h2 | h2
    · exact hf acc x q h2
    · exact Or.inr h2

/-- Elements of the vendor classify loop: each comes from a guarded input
candidate through the classify function. -/
theorem classifyFold_go_mem (g : PreviewInfo → Bool)
    (f : PreviewInfo → Nat → PreviewInfo × Nat) (P : PreviewInfo → Prop)
    (hP : ∀ p c, g p = true → P (f p c).1) :
    ∀ (l : List PreviewInfo) (ac : List PreviewInfo × Nat) (q : PreviewInfo),
      q ∈ (l.foldl
        (fun ac p => if g p then (ac.1 ++ [(f p ac.2).1], (f p ac.2).2)
         else ac) ac).1 →
      q ∈ ac.1 ∨ P q := by
  intro l
  induction l with
  | nil => intro ac q hq; exact Or.inl hq
  | cons p ps ih =>
    intro ac q hq
    rw [List.foldl_cons] at hq
    rcases ih _ q hq with h2 | h2
    · by_cases hg : g p = true
      · rw [if_pos hg] at h2
        rcases List.mem_append.mp h2 with h3 | h3
        · exact Or.inl h3
        · right
          rw [List.mem_singleton] at h3
          subst h3
          exact hP p ac.2 hg
      · rw [if_neg hg] at h2
        exact Or.inl h2
    · exact Or.inr h2

/-- Wrapper of the previous lemma for classifyFoldSt itself. -/
theorem classifyFoldSt_mem (g : PreviewInfo → Bool)
    (f : PreviewInfo → Nat → PreviewInfo × Nat) (P : PreviewInfo → Prop)
    (hP : ∀ p c, g p = true → P (f p c).1) (l : List PreviewInfo)
    (c0 : Nat) (q : PreviewInfo) (hq : q ∈ (classifyFoldSt g f c0 l).1) :
    P q := by
  unfold classifyFoldSt at hq
  rcases classifyFold_go_mem g f P hP l ([], c0) q hq with h2 | h2
  · cases h2
  · exact h2

/-- Every CR2 candidate has positive offset and size. -/
theorem cr2ExtractPreviews_mem (fuel ctr : Nat) (d : List Nat)
    (out : List PreviewInfo) (c2 : Nat)
    (h : cr2ExtractPreviews fuel ctr d = some (out, c2)) :
    ∀ q ∈ out, 0 < q.offset ∧ 0 < q.size := by
  unfold cr2ExtractPreviews at h
  split_ifs at h with hc
  · split at h
    · exact Option.noConfusion h
    · simp only [Option.some.injEq] at h
      rw [Prod.ext_iff] at h
      dsimp only at h
      rcases h with ⟨h1, -⟩
      intro q hq
      rw [← h1] at hq
      refine classifyFoldSt_mem _ _ (fun q => 0 < q.offset ∧ 0 < q.size)
        (fun p c hg => ?_) _ _ q hq
      have hp := vendorGuard_spec d p hg
      unfold cr2Classify
      split_ifs <;> exact hp
  · simp only [Option.some.injEq] at h
    rw [Prod.ext_iff] at h
    dsimp only at h
    rcases h with ⟨h1, -⟩
    subst h1
    intro q hq
    cases hq

/-- Every DNG candidate has positive offset and size. -/
theorem dngExtractPreviews_mem (fuel : Nat) (d : List Nat)
    (out : List PreviewInfo) (h : dngExtractPreviews fuel d = some out) :
    ∀ q ∈ out, 0 < q.offset ∧ 0 < q.size := by
  unfold dngExtractPreviews at h
  split_ifs at h with hc
  · split at h
    · exact Option.noConfusion h
    · simp only [Option.some.injEq] at h
      intro q hq
      rw [← h] at hq
      refine classifyFoldSt_mem _ _ (fun q => 0 < q.offset ∧ 0 < q.size)
        (fun p c hg => ?_) _ _ q hq
      have hp := vendorGuard_spec d p hg
      unfold dngClassify
      split_ifs <;> exact hp
  · simp only [Option.some.injEq] at h
    subst h
    intro q hq
    cases hq

/-- Every ORF candidate has positive offset and size. -/
theorem orfExtractPreviews_mem (fuel : Nat) (d : List Nat)
    (out : List PreviewInfo) (h : orfExtractPreviews fuel d = some out) :
    ∀ q ∈ out, 0 < q.offset ∧ 0 < q.size := by
  unfold orfExtractPreviews at h
  split_ifs at h with hc
  · split at h
    · exact Option.noConfusion h
    · simp only [Option.some.injEq] at h
      intro q hq
      rw [← h] at hq
      refine classifyFoldSt_mem _ _ (fun q => 0 < q.offset ∧ 0 < q.size)
        (fun p c hg => ?_) _ _ q hq
      have hp := vendorGuard_spec d p hg
      unfold orfClassify
      exact hp
  · simp only [Option.some.injEq] at h
    subst h
    intro q hq
    cases hq

/-- Every RW2 candidate has positive offset and size. -/
theorem rw2ExtractPreviews_mem (fuel : Nat) (d : List Nat)
    (out : List PreviewInfo) (h : rw2ExtractPreviews fuel d = some out) :
    ∀ q ∈ out, 0 < q.offset ∧ 0 < q.size := by
  unfold rw2ExtractPreviews at h
  split_ifs at h with hc
  · split at h
    · exact Option.noConfusion h
    · simp only [Option.some.injEq] at h
      intro q hq
      rw [← h] at hq
      refine classifyFoldSt_mem _ _ (fun q => 0 < q.offset ∧ 0 < q.size)
        (fun p c hg => ?_) _ _ q hq
      have hp := vendorGuard_spec d p hg
      unfold rw2Classify
      exact hp
  · simp only [Option.some.injEq] at h
    subst h
    intro q hq
    cases hq

/-- Every RAF candidate has positive offset and size. -/
theorem rafExtractPreviews_mem (d : List Nat) :
    ∀ q ∈ rafExtractPreviews d, 0 < q.offset ∧ 0 < q.size := by
  intro q hq
  simp only [rafExtractPreviews] at hq
  split_ifs at hq with h1 h2 h3
  all_goals
    first
    | (rw [List.mem_singleton] at hq
       subst hq
       exact ⟨h3.1, h3.2.1⟩)
    | cases hq

/-- Membership in a CR3 guarded-singleton emission. -/
theorem mem_guardedOrient (x : PreviewInfo) (o : Nat) (q : PreviewInfo)
    (hq : q ∈ (if 0 < x.offset ∧ 0 < x.size then
      [{ x with orientation := o }] else [])) :
    0 < q.offset ∧ 0 < q.size := by
  split at hq
  · next hc =>
    rw [List.mem_singleton] at hq
    subst hq
    exact hc
  · cases hq

/-- Every CR3 candidate has positive offset and size. -/
theorem cr3ExtractPreviews_mem (d : List Nat) :
    ∀ q ∈ cr3ExtractPreviews d, 0 < q.offset ∧ 0 < q.size := by
  intro q hq
  unfold cr3ExtractPreviews at hq
  split at hq
  · cases hq
  · dsimp only at hq
    rcases List.mem_append.mp hq with h | h
    · rcases List.mem_append.mp h with h2 | h2
      · exact mem_guardedOrient _ _ _ h2
      · exact mem_guardedOrient _ _ _ h2
    · exact mem_guardedOrient _ _ _ h

/-- Additions of the NEF JpgFromRaw SubIFD body have positive offset and
size (they are guarded by `jpegOffset > 0 && jpegLength > 0`). -/
theorem nefNikonStep_mem (d : List Nat) (le : Bool) (orient : Nat)
    (ifd : TiffIfd) (prevs : List PreviewInfo) (q : PreviewInfo)
    (hq : q ∈ nefNikonStep d le orient ifd prevs) :
    q ∈ prevs ∨ (0 < q.offset ∧ 0 < q.size) := by
  unfold nefNikonStep at hq
  split at hq
  · exact Or.inl hq
  · refine foldl_guarded_mem _ (fun r => 0 < r.offset ∧ 0 < r.size) ?_ _ _ q hq
    intro acc x q2 hq2
    simp only at hq2
    rcases hp : parseIfd d le x.2 with _ | subIfd <;> simp only [hp] at hq2
    · exact Or.inl hq2
    · rcases h1 : tagLookup subIfd.tags 0x0201 with _ | js <;>
        rcases h2 : tagLookup subIfd.tags 0x0202 with _ | jl <;>
        simp only [h1, h2] at hq2
      · exact Or.inl hq2
      · exact Or.inl hq2
      · exact Or.inl hq2
      · split at hq2
        · next hcond =>
          split at hq2
          · exact Or.inl hq2
          · rcases List.mem_append.mp hq2 with h3 | h3
            · exact Or.inl h3
            · right
              rw [List.mem_singleton] at h3
              subst h3
              exact ⟨hcond.1, hcond.2.1⟩
        · exact Or.inl hq2

/-- The NEF JpgFromRaw walk only adds candidates with positive offset and
size. -/
theorem nefNikonAux_mem (d : List Nat) (le : Bool) (orient : Nat) :
    ∀ (fuel off : Nat) (prevs out : List PreviewInfo),
      nefNikonAux d le orient fuel off prevs = some out →
      ∀ q ∈ out, q ∈ prevs ∨ (0 < q.offset ∧ 0 < q.size) := by
  intro fuel
  induction fuel with
  | zero =>
    intro off prevs out h q hq
    unfold nefNikonAux at h
    split at h
    · simp only [Option.some.injEq] at h
      subst h
      exact Or.inl hq
    · split at h
      · simp only [Option.some.injEq] at h
        subst h
        exact Or.inl hq
      · exact Option.noConfusion h
  | succ n ih =>
    intro off prevs out h q hq
    unfold nefNikonAux at h
    split at h
    · simp only [Option.some.injEq] at h
      subst h
      exact Or.inl hq
    · split at h
      · simp only [Option.some.injEq] at h
        subst h
        exact Or.inl hq
      · rcases ih _ _ _ h q hq with h2 | h2
        · exact nefNikonStep_mem d le orient _ prevs q h2
        · exact Or.inr h2

/-- NefParser::extractNikonSpecificPreviews only adds candidates with
positive offset and size. -/
theorem nefNikonPass_mem (fuel : Nat) (d : List Nat) (orient : Nat)
    (prevs out : List PreviewInfo)
    (h : nefNikonPass fuel d orient prevs = some out) :
    ∀ q ∈ out, q ∈ prevs ∨ (0 < q.offset ∧ 0 < q.size) := by
  unfold nefNikonPass at h
  split at h
  · simp only [Option.some.injEq] at h
    subst h
    exact fun q hq => Or.inl hq
  · next le first heq =>
    exact nefNikonAux_mem d le orient fuel first prevs out h

/-- Every NEF candidate has positive offset and size. -/
theorem nefExtractPreviews_mem (fuel ctr : Nat) (d : List Nat)
    (out : List PreviewInfo) (c2 : Nat)
    (h : nefExtractPreviews fuel ctr d = some (out, c2)) :
    ∀ q ∈ out, 0 < q.offset ∧ 0 < q.size := by
  simp only [nefExtractPreviews] at h
  split_ifs at h with hc
  · split at h
    · exact Option.noConfusion h
    · split at h
      · exact Option.noConfusion h
      · next out2 hpass =>
        simp only [Option.some.injEq] at h
        rw [Prod.ext_iff] at h
        dsimp only at h
        rcases h with ⟨h1, -⟩
        subst h1
        intro q hq
        rcases nefNikonPass_mem _ _ _ _ _ hpass q hq with h2 | h2
        · refine classifyFoldSt_mem _ _ (fun r => 0 < r.offset ∧ 0 < r.size)
            (fun p c hg => ?_) _ _ q h2
          have hp := vendorGuard_spec d p hg
          unfold nefClassify
          split_ifs <;> exact hp
        · exact h2
  · simp only [Option.some.injEq] at h
    rw [Prod.ext_iff] at h
    dsimp only at h
    rcases h with ⟨h1, -⟩
    subst h1
    intro q hq
    cases hq

/-- The SR2Private SOI scan only adds candidates with positive size (the
stored size passed JPEG validation, hence is at least 4). -/
theorem parseSr2Private_mem (d : List Nat) (offset length orient : Nat)
    (prevs : List PreviewInfo) (q : PreviewInfo)
    (hq : q ∈ parseSr2Private d offset length orient prevs) :
    q ∈ prevs ∨ 0 < q.size := by
  unfold parseSr2Private at hq
  split_ifs at hq
  · exact Or.inl hq
  · refine foldl_guarded_mem _ (fun r => 0 < r.size) ?_ _ _ q hq
    intro acc i q2 hq2
    simp only at hq2
    split at hq2
    · split at hq2
      · split at hq2
        · split at hq2
          · next hvalid =>
            split at hq2
            · exact Or.inl hq2
            · rcases List.mem_append.mp hq2 with h3 | h3
              · exact Or.inl h3
              · right
                rw [List.mem_singleton] at h3
                subst h3
                have h4 := isValidJpeg_size_ge _ _ hvalid
                dsimp only
                omega
          · exact Or.inl hq2
        · exact Or.inl hq2
      · exact Or.inl hq2
    · exact Or.inl hq2

/-- The SR2SubIFD strip scan only adds candidates with positive size.
(Positive offset does NOT hold here: the source omits the
`jpegOffset > 0` check.) -/
theorem arwSr2SubIfdStep_mem (d : List Nat) (le : Bool) (orient : Nat)
    (offs : List Nat) (prevs : List PreviewInfo) (q : PreviewInfo)
    (hq : q ∈ arwSr2SubIfdStep d le orient offs prevs) :
    q ∈ prevs ∨ 0 < q.size := by
  unfold arwSr2SubIfdStep at hq
  refine foldl_guarded_mem _ (fun r => 0 < r.size) ?_ _ _ q hq
  intro acc so q2 hq2
  simp only at hq2
  split at hq2
  · rcases hp : parseIfd d le so with _ | sub <;> simp only [hp] at hq2
    · exact Or.inl hq2
    · rcases h1 : tagLookup sub.tags 0x0111 with _ | soT <;>
        rcases h2 : tagLookup sub.tags 0x0117 with _ | sbcT <;>
        simp only [h1, h2] at hq2
      · exact Or.inl hq2
      · exact Or.inl hq2
      · exact Or.inl hq2
      · split at hq2
        · split at hq2
          · next hcond =>
            split at hq2
            · exact Or.inl hq2
            · rcases List.mem_append.mp hq2 with h3 | h3
              · exact Or.inl h3
              · right
                rw [List.mem_singleton] at h3
                subst h3
                have h4 := isValidJpeg_size_ge _ _ hcond.2
                dsimp only
                omega
          · exact Or.inl hq2
        · exact Or.inl hq2
  · exact Or.inl hq2

/-- The SR2 pass walk only adds candidates with positive size. -/
theorem arwSr2Aux_mem (d : List Nat) (le : Bool) (orient : Nat) :
    ∀ (fuel off : Nat) (prevs out : List PreviewInfo),
      arwSr2Aux d le orient fuel off prevs = some out →
      ∀ q ∈ out, q ∈ prevs ∨ 0 < q.size := by
  intro fuel
  induction fuel with
  | zero =>
    intro off prevs out h q hq
    unfold arwSr2Aux at h
    split at h
    · simp only [Option.some.injEq] at h
      subst h
      exact Or.inl hq
    · split at h
      · simp only [Option.some.injEq] at h
        subst h
        exact Or.inl hq
      · exact Option.noConfusion h
  | succ n ih =>
    intro off prevs out h q hq
    unfold arwSr2Aux at h
    split at h
    · simp only [Option.some.injEq] at h
      subst h
      exact Or.inl hq
    · split at h
      · simp only [Option.some.injEq] at h
        subst h
        exact Or.inl hq
      · next ifd hifd =>
        rcases ih _ _ _ h q hq with h2 | h2
        · -- q is in prevs2: peel the 0x7201 layer, then the 0x7200 layer
          have h3 : q ∈ (match tagLookup ifd.tags 0x7200 with
              | some t =>
                if 0 < getTagValue32 t d le ∧ 0 < t.count ∧
                    u32 (getTagValue32 t d le + t.count) ≤ d.length then
                  parseSr2Private d (getTagValue32 t d le) t.count orient prevs
                else prevs
              | none => prevs) ∨ 0 < q.size := by
            rcases h7 : tagLookup ifd.tags 0x7201 with _ | t <;>
              simp only [h7] at h2
            · exact Or.inl h2
            · exact arwSr2SubIfdStep_mem d le orient _ _ q h2
          rcases h3 with h4 | h4
          · rcases h8 : tagLookup ifd.tags 0x7200 with _ | t <;>
              simp only [h8] at h4
            · exact Or.inl h4
            · split at h4
              · exact parseSr2Private_mem d _ _ orient prevs q h4
              · exact Or.inl h4
          · exact Or.inr h4
        · exact Or.inr h2

/-- ArwParser::extractSr2PrivatePreviews only adds candidates with
positive size. -/
theorem arwSr2Pass_mem (fuel : Nat) (d : List Nat) (orient : Nat)
    (prevs out : List PreviewInfo)
    (h : arwSr2Pass fuel d orient prevs = some out) :
    ∀ q ∈ out, q ∈ prevs ∨ 0 < q.size := by
  unfold arwSr2Pass at h
  split at h
  · simp only [Option.some.injEq] at h
    subst h
    exact fun q hq => Or.inl hq
  · next le first heq =>
    exact arwSr2Aux_mem d le orient fuel first prevs out h

/-- Every ARW candidate has positive size. -/
theorem arwExtractPreviews_mem (fuel ctr : Nat) (d : List Nat)
    (out : List PreviewInfo) (c2 : Nat)
    (h : arwExtractPreviews fuel ctr d = some (out, c2)) :
    ∀ q ∈ out, 0 < q.size := by
  simp only [arwExtractPreviews] at h
  split_ifs at h with hc
  case neg =>
    simp only [Option.some.injEq] at h
    rw [Prod.ext_iff] at h
    dsimp only at h
    rcases h with ⟨h1, -⟩
    subst h1
    intro q hq
    cases hq
  · split at h
    · exact Option.noConfusion h
    · split at h
      · exact Option.noConfusion h
      · next out2 hpass =>
        simp only [Option.some.injEq] at h
        rw [Prod.ext_iff] at h
        dsimp only at h
        rcases h with ⟨h1, -⟩
        subst h1
        intro q hq
        rcases arwSr2Pass_mem _ _ _ _ _ hpass q hq with h2 | h2
        · refine classifyFoldSt_mem _ _ (fun r => 0 < r.size)
            (fun p c hg => ?_) _ _ q h2
          have hp := vendorGuard_spec d p hg
          unfold arwClassify
          split_ifs <;> exact hp.2
        · exact h2

/-- Assembled invariant of RawExtractor::getAllPreviews: every candidate
of every format has positive size, and every format except ARW (whose
SR2SubIFD path omits the `jpegOffset > 0` check) also guarantees a
positive offset. -/
theorem getAllPreviews_mem (fuel : Nat) (st : CounterState) (d : List Nat)
    (fmt : RawFormat) (out : List PreviewInfo) (st2 : CounterState)
    (h : getAllPreviews fuel st d fmt = some (out, st2)) :
    ∀ q ∈ out, 0 < q.size ∧ (fmt ≠ RawFormat.ARW → 0 < q.offset) := by
  cases fmt <;> simp only [getAllPreviews] at h
  case UNKNOWN =>
    simp only [Option.some.injEq, Prod.mk.injEq] at h
    rcases h with ⟨h1, -⟩
    subst h1
    intro q hq
    cases hq
  case PEF =>
    simp only [Option.some.injEq, Prod.mk.injEq] at h
    rcases h with ⟨h1, -⟩
    subst h1
    intro q hq
    cases hq
  case CR2 =>
    rcases hr : cr2ExtractPreviews fuel st.cr2Ctr d with _ | r <;>
      rw [hr] at h
    · exact Option.noConfusion h
    · simp only [Option.map_some', Option.some.injEq, Prod.mk.injEq] at h
      rcases h with ⟨h1, -⟩
      subst h1
      intro q hq
      have h2 := cr2ExtractPreviews_mem fuel st.cr2Ctr d r.1 r.2 hr q hq
      exact ⟨h2.2, fun _ => h2.1⟩
  case NEF =>
    rcases hr : nefExtractPreviews fuel st.nefCtr d with _ | r <;>
      rw [hr] at h
    · exact Option.noConfusion h
    · simp only [Option.map_some', Option.some.injEq, Prod.mk.injEq] at h
      rcases h with ⟨h1, -⟩
      subst h1
      intro q hq
      have h2 := nefExtractPreviews_mem fuel st.nefCtr d r.1 r.2 hr q hq
      exact ⟨h2.2, fun _ => h2.1⟩
  case ARW =>
    rcases hr : arwExtractPreviews fuel st.arwCtr d with _ | r <;>
      rw [hr] at h
    · exact Option.noConfusion h
    · simp only [Option.map_some', Option.some.injEq, Prod.mk.injEq] at h
      rcases h with ⟨h1, -⟩
      subst h1
      intro q hq
      have h2 := arwExtractPreviews_mem fuel st.arwCtr d r.1 r.2 hr q hq
      exact ⟨h2, fun hne => absurd rfl hne⟩
  case CR3 =>
    simp only [Option.some.injEq, Prod.mk.injEq] at h
    rcases h with ⟨h1, -⟩
    subst h1
    intro q hq
    have h2 := cr3ExtractPreviews_mem d q hq
    exact ⟨h2.2, fun _ => h2.1⟩
  case RAF =>
    simp only [Option.some.injEq, Prod.mk.injEq] at h
    rcases h with ⟨h1, -⟩
    subst h1
    intro q hq
    have h2 := rafExtractPreviews_mem d q hq
    exact ⟨h2.2, fun _ => h2.1⟩
  case DNG =>
    rcases hr : dngExtractPreviews fuel d with _ | l <;> rw [hr] at h
    · exact Option.noConfusion h
    · simp only [Option.map_some', Option.some.injEq, Prod.mk.injEq] at h
      rcases h with ⟨h1, -⟩
      subst h1
      intro q hq
      have h2 := dngExtractPreviews_mem fuel d l hr q hq
      exact ⟨h2.2, fun _ => h2.1⟩
  case ORF =>
    rcases hr : orfExtractPreviews fuel d with _ | l <;> rw [hr] at h
    · exact Option.noConfusion h
    · simp only [Option.map_some', Option.some.injEq, Prod.mk.injEq] at h
      rcases h with ⟨h1, -⟩
      subst h1
      intro q hq
      have h2 := orfExtractPreviews_mem fuel d l hr q hq
      exact ⟨h2.2, fun _ => h2.1⟩
  case RW2 =>
    rcases hr : rw2ExtractPreviews fuel d with _ | l <;> rw [hr] at h
    · exact Option.noConfusion h
    · simp only [Option.map_some', Option.some.injEq, Prod.mk.injEq] at h
      rcases h with ⟨h1, -⟩
      subst h1
      intro q hq
      have h2 := rw2ExtractPreviews_mem fuel d l hr q hq
      exact ⟨h2.2, fun _ => h2.1⟩

/-- C10 (amended).  Every candidate emitted by any format has positive
size, and every format EXCEPT ARW also guarantees a positive offset (the
ARW SR2SubIFD strip path omits the `jpegOffset > 0` check, so an ARW
candidate at file offset 0 can be enumerated); independently, the
top-level extractor treats a selected preview with offset 0 or size 0 as
absent, so a successful result always carries a preview with positive
offset and size. -/
theorem c10_amended :
    (∀ (fuel : Nat) (st : CounterState) (d : List Nat) (fmt : RawFormat)
        (out : List PreviewInfo) (st2 : CounterState),
        getAllPreviews fuel st d fmt = some (out, st2) →
        ∀ q ∈ out, 0 < q.size ∧ (fmt ≠ RawFormat.ARW → 0 < q.offset)) ∧
    (∀ (fuel : Nat) (st : CounterState) (dOpt : Option (List Nat))
        (opts : ExtractionOptions) (res : ExtractionResult)
        (st2 : CounterState),
        extractFromBuffer fuel st dOpt opts = some (res, st2) →
        res.success = true →
        0 < res.preview.offset ∧ 0 < res.preview.size) := by
  refine ⟨getAllPreviews_mem, ?_⟩
  intro fuel st dOpt opts res st2 h hsucc
  rcases dOpt with _ | d
  · simp only [extractFromBuffer, Option.some.injEq, Prod.mk.injEq] at h
    rcases h with ⟨h1, -⟩
    subst h1
    simp [errRes] at hsucc
  · simp only [extractFromBuffer] at h
    repeat' split at h
    all_goals
      first
      | exact Option.noConfusion h
      | (simp only [Option.some.injEq, Prod.mk.injEq] at h
         rcases h with ⟨h1, -⟩
         subst h1
         first
         | (simp [errRes] at hsucc; done)
         | (dsimp only; omega))

/-- C10 counterexample to the unamended text: an ARW whose SR2SubIFD
strips start at offset 0 (the file itself is a JPEG/TIFF chimera) is
enumerated as a candidate with offset 0 — the SR2SubIFD path has no
`jpegOffset > 0` check. -/
theorem c10_counterexample :
    (getAllPreviews 5 st0 arwChimera RawFormat.ARW).map
        (fun r => r.1.map fun p => (p.offset, p.size, p.type)) =
      some [(0, 74, "ARW_SR2SubIFD")] := by
  decide

/-- Witness for C10: the NEF fixture's candidate list and the successful
end-to-end extraction from the padded NEF fixture. -/
theorem c10_amended_witness :
    ((0 : Nat) < nefFixPreview0.size ∧
      (RawFormat.NEF ≠ RawFormat.ARW → 0 < nefFixPreview0.offset)) ∧
    (0 < nefFixPadRes.preview.offset ∧ 0 < nefFixPadRes.preview.size) :=
  ⟨c10_amended.1 5 st0 nefFix RawFormat.NEF [nefFixPreview0]
      ⟨1, 0, 0⟩ (by decide) nefFixPreview0 (List.mem_singleton.mpr rfl),
   c10_amended.2 5 st0 (some nefFixPad) defaultOptions nefFixPadRes
      ⟨1, 0, 0⟩ (by rfl) (by rfl)⟩

/-- A fold whose step either keeps the accumulator or appends one
candidate whose (offset, size) key passed the duplicate check preserves
key-distinctness (generic helper for the deduplicated vendor passes). -/
theorem foldl_dedup_nodup {α : Type}
    (f : List PreviewInfo → α → List PreviewInfo)
    (hf : ∀ acc x, f acc x = acc ∨
      ∃ c, f acc x = acc ++ [c] ∧ hasDupKey acc c.offset c.size = false) :
    ∀ (l : List α) (acc : List PreviewInfo),
      (acc.map fun p => (p.offset, p.size)).Nodup →
      ((l.foldl f acc).map fun p => (p.offset, p.size)).Nodup := by
  intro l
  induction l with
  | nil => intro acc h; exact h
  | cons x xs ih =>
    intro acc h
    rw [List.foldl_cons]
    refine ih (f acc x) ?_
    rcases hf acc x with h2 | ⟨c, h2, h3⟩
    · rw [h2]; exact h
    · rw [h2, List.map_append]
      refine List.Nodup.append h (List.nodup_singleton _) ?_
      intro a ha hb
      rw [List.map_singleton, List.mem_singleton] at hb
      subst hb
      rw [List.mem_map] at ha
      rcases ha with ⟨p, hp, hkey⟩
      have hk : p.offset = c.offset ∧ p.size = c.size := by
        simpa only [Prod.mk.injEq] using hkey
      have hdup : hasDupKey acc c.offset c.size = true := by
        simp only [hasDupKey, List.any_eq_true, Bool.and_eq_true, beq_iff_eq]
        exact ⟨p, hp, hk.1, hk.2⟩
      rw [h3] at hdup
      exact Bool.noConfusion hdup

/-- The NEF JpgFromRaw SubIFD body preserves key-distinctness. -/
theorem nefNikonStep_nodup (d : List Nat) (le : Bool) (orient : Nat)
    (ifd : TiffIfd) (prevs : List PreviewInfo)
    (hn : (prevs.map fun p => (p.offset, p.size)).Nodup) :
    ((nefNikonStep d le orient ifd prevs).map
      fun p => (p.offset, p.size)).Nodup := by
  unfold nefNikonStep
  split
  · exact hn
  · refine foldl_dedup_nodup _ ?_ _ _ hn
    intro acc oi
    dsimp only
    rcases hp : parseIfd d le oi.2 with _ | subIfd <;> simp only [hp]
    · exact Or.inl trivial
    · rcases h1 : tagLookup subIfd.tags 0x0201 with _ | js <;>
        rcases h2 : tagLookup subIfd.tags 0x0202 with _ | jl <;>
        simp only [h1, h2]
      · exact Or.inl trivial
      · exact Or.inl trivial
      · exact Or.inl trivial
      · split_ifs with hg hdup <;>
          first
          | exact Or.inl rfl
          | exact Or.inl trivial
          | exact Or.inr ⟨_, rfl, by simpa using hdup⟩

/-- The NEF JpgFromRaw walk preserves key-distinctness. -/
theorem nefNikonAux_nodup (d : List Nat) (le : Bool) (orient : Nat) :
    ∀ (fuel off : Nat) (prevs out : List PreviewInfo),
      nefNikonAux d le orient fuel off prevs = some out →
      (prevs.map fun p => (p.offset, p.size)).Nodup →
      (out.map fun p => (p.offset, p.size)).Nodup := by
  intro fuel
  induction fuel with
  | zero =>
    intro off prevs out h hn
    unfold nefNikonAux at h
    split at h
    · simp only [Option.some.injEq] at h
      subst h
      exact hn
    · split at h
      · simp only [Option.some.injEq] at h
        subst h
        exact hn
      · exact Option.noConfusion h
  | succ n ih =>
    intro off prevs out h hn
    unfold nefNikonAux at h
    split at h
    · simp only [Option.some.injEq] at h
      subst h
      exact hn
    · split at h
      · simp only [Option.some.injEq] at h
        subst h
        exact hn
      · exact ih _ _ _ h (nefNikonStep_nodup d le orient _ prevs hn)

/-- NefParser::extractNikonSpecificPreviews preserves key-distinctness. -/
theorem nefNikonPass_nodup (fuel : Nat) (d : List Nat) (orient : Nat)
    (prevs out : List PreviewInfo)
    (h : nefNikonPass fuel d orient prevs = some out)
    (hn : (prevs.map fun p => (p.offset, p.size)).Nodup) :
    (out.map fun p => (p.offset, p.size)).Nodup := by
  unfold nefNikonPass at h
  split at h
  · simp only [Option.some.injEq] at h
    subst h
    exact hn
  · next le first heq =>
    exact nefNikonAux_nodup d le orient fuel first prevs out h hn

/-- The SR2Private SOI scan preserves key-distinctness. -/
theorem parseSr2Private_nodup (d : List Nat) (offset length orient : Nat)
    (prevs : List PreviewInfo)
    (hn : (prevs.map fun p => (p.offset, p.size)).Nodup) :
    ((parseSr2Private d offset length orient prevs).map
      fun p => (p.offset, p.size)).Nodup := by
  unfold parseSr2Private
  split_ifs
  · exact hn
  · refine foldl_dedup_nodup _ ?_ _ _ hn
    intro acc i
    dsimp only
    split
    · rcases hje : findJpegEndT d d.length (offset + i) with _ | jEnd <;>
        simp only [hje]
      · exact Or.inl trivial
      · split_ifs with hlt hv hdup <;>
          first
          | exact Or.inl rfl
          | exact Or.inl trivial
          | exact Or.inr ⟨_, rfl, by simpa using hdup⟩
    · exact Or.inl rfl

/-- The SR2SubIFD strip scan preserves key-distinctness. -/
theorem arwSr2SubIfdStep_nodup (d : List Nat) (le : Bool) (orient : Nat)
    (offs : List Nat) (prevs : List PreviewInfo)
    (hn : (prevs.map fun p => (p.offset, p.size)).Nodup) :
    ((arwSr2SubIfdStep d le orient offs prevs).map
      fun p => (p.offset, p.size)).Nodup := by
  unfold arwSr2SubIfdStep
  refine foldl_dedup_nodup _ ?_ _ _ hn
  intro acc so
  dsimp only
  split
  · rcases hp : parseIfd d le so with _ | sub <;> simp only [hp]
    · exact Or.inl trivial
    · rcases h1 : tagLookup sub.tags 0x0111 with _ | soT <;>
        rcases h2 : tagLookup sub.tags 0x0117 with _ | sbcT <;>
        simp only [h1, h2]
      · exact Or.inl trivial
      · exact Or.inl trivial
      · exact Or.inl trivial
      · split_ifs with hne hv hdup <;>
          first
          | exact Or.inl rfl
          | exact Or.inl trivial
          | exact Or.inr ⟨_, rfl, by simpa using hdup⟩
  · exact Or.inl rfl

/-- The SR2 pass walk preserves key-distinctness. -/
theorem arwSr2Aux_nodup (d : List Nat) (le : Bool) (orient : Nat) :
    ∀ (fuel off : Nat) (prevs out : List PreviewInfo),
      arwSr2Aux d le orient fuel off prevs = some out →
      (prevs.map fun p => (p.offset, p.size)).Nodup →
      (out.map fun p => (p.offset, p.size)).Nodup := by
  intro fuel
  induction fuel with
  | zero =>
    intro off prevs out h hn
    unfold arwSr2Aux at h
    split at h
    · simp only [Option.some.injEq] at h
      subst h
      exact hn
    · split at h
      · simp only [Option.some.injEq] at h
        subst h
        exact hn
      · exact Option.noConfusion h
  | succ n ih =>
    intro off prevs out h hn
    unfold arwSr2Aux at h
    split at h
    · simp only [Option.some.injEq] at h
      subst h
      exact hn
    · split at h
      · simp only [Option.some.injEq] at h
        subst h
        exact hn
      · next ifd hifd =>
        refine ih _ _ _ h ?_
        have hn1 : ((match tagLookup ifd.tags 0x7200 with
            | some t =>
              if 0 < getTagValue32 t d le ∧ 0 < t.count ∧
                  u32 (getTagValue32 t d le + t.count) ≤ d.length then
                parseSr2Private d (getTagValue32 t d le) t.count orient prevs
              else prevs
            | none => prevs).map fun (p : PreviewInfo) =>
              (p.offset, p.size)).Nodup := by
          rcases h8 : tagLookup ifd.tags 0x7200 with _ | t <;> simp only [h8]
          · exact hn
          · split_ifs with hg
            · exact parseSr2Private_nodup d _ _ orient prevs hn
            · exact hn
        rcases h7 : tagLookup ifd.tags 0x7201 with _ | t <;> simp only [h7]
        · exact hn1
        · exact arwSr2SubIfdStep_nodup d le orient _ _ hn1

/-- ArwParser::extractSr2PrivatePreviews preserves key-distinctness. -/
theorem arwSr2Pass_nodup (fuel : Nat) (d : List Nat) (orient : Nat)
    (prevs out : List PreviewInfo)
    (h : arwSr2Pass fuel d orient prevs = some out)
    (hn : (prevs.map fun p => (p.offset, p.size)).Nodup) :
    (out.map fun p => (p.offset, p.size)).Nodup := by
  unfold arwSr2Pass at h
  split at h
  · simp only [Option.some.injEq] at h
    subst h
    exact hn
  · next le first heq =>
    exact arwSr2Aux_nodup d le orient fuel first prevs out h hn

/-- C4 (amended).  The duplicate-(offset, size) check exists ONLY in the
vendor second passes: NefParser::extractNikonSpecificPreviews and the two
ARW SR2 passes never introduce a duplicate key into a key-distinct
candidate list.  (The main TIFF walk and the classification folds of the
other paths have no such check, so duplicates arriving from the IFD chain
itself survive — see the CR2 counterexample.) -/
theorem c4_amended :
    (∀ (fuel : Nat) (d : List Nat) (orient : Nat)
        (prevs out : List PreviewInfo),
        nefNikonPass fuel d orient prevs = some out →
        (prevs.map fun p => (p.offset, p.size)).Nodup →
        (out.map fun p => (p.offset, p.size)).Nodup) ∧
    (∀ (fuel : Nat) (d : List Nat) (orient : Nat)
        (prevs out : List PreviewInfo),
        arwSr2Pass fuel d orient prevs = some out →
        (prevs.map fun p => (p.offset, p.size)).Nodup →
        (out.map fun p => (p.offset, p.size)).Nodup) :=
  ⟨nefNikonPass_nodup, arwSr2Pass_nodup⟩

/-- C4 counterexample to the unamended text: a CR2 whose two IFDs carry
identical StripOffsets/StripByteCounts yields the same (offset, size)
pair twice in the candidate list — the CR2/TIFF path never checks for
duplicates. -/
theorem c4_counterexample :
    (cr2ExtractPreviews 5 0 cr2DupFix).map
        (fun r => r.1.map fun p => (p.offset, p.size)) =
      some [(70, 8), (70, 8)] := by
  decide

/-- Witness for C4: the Nikon pass on the NEF fixture (whose candidate is
deduplicated away) and the SR2 pass on the chimera buffer (which appends
one fresh candidate). -/
theorem c4_amended_witness :
    (([nefFixPreview0].map fun p => (p.offset, p.size)).Nodup) ∧
    ((((arwSr2Pass 5 arwChimera 1 []).getD []).map
      fun p => (p.offset, p.size)).Nodup) :=
  ⟨c4_amended.1 5 nefFix 1 [nefFixPreview0] [nefFixPreview0]
      (by decide) (by decide),
   c4_amended.2 5 arwChimera 1 [] ((arwSr2Pass 5 arwChimera 1 []).getD [])
      (by decide) (by decide)⟩
